import Mathlib

/-!
Verification development for the placement and recovery control plane of the
LogDevice repository: the nodeset selectors, the rebuilding supervisor's
trigger-queue throttle, and the rebuilding log enumerator.

The enumerator definitions are translated from
`logdevice/server/RebuildingLogEnumerator.cpp`.  The selector and supervisor
implementations are not part of the source tree here (only their tests are),
so those components are modelled from the specification and checked against
the concrete expectations recorded in
`logdevice/common/test/RandomNodeSetSelectorTest.cpp` and
`logdevice/test/RebuildingSupervisorIntegrationTest.cpp`.
-/

namespace LogDevice

/-! ## Rebuilding log enumerator (from RebuildingLogEnumerator.cpp) -/

/-- Minimum representable record timestamp, modelling `RecordTimestamp::min()`
(an int64 count of milliseconds). -/
def recordTimestampMin : Int := -(2 ^ 63)

/-- One entry of the local logs config, as seen by the enumerator loop:
the log id, whether `InternalLogs::isInternal` holds, whether
`MetaDataLog::isMetaDataLog` holds, and the configured backlog duration
(`none` models infinite retention). -/
structure LogEntry where
  logid : Nat
  isInternal : Bool
  isMetaDataLog : Bool
  backlogDuration : Option Nat
deriving DecidableEq

/-- The two rebuilding settings consulted by the enumerator. -/
structure RebuildingSettings where
  disable_data_log_rebuilding : Bool
  use_legacy_log_to_shard_mapping_in_rebuilding : Bool
deriving DecidableEq

/-- Running state of `RebuildingLogEnumerator::start`: the accumulated
`result_` map (association list keyed by log id), `maxBacklogDuration_`,
and the two skip counters. -/
structure EnumState where
  result : List (Nat × Int)
  maxBacklogDuration : Nat
  internalSkipped : Nat
  dataSkipped : Nat
deriving DecidableEq

/-- The `emplace` operation of `std::map`: insert only when the key is
absent, never overwrite an existing entry. -/
def emplace (m : List (Nat × Int)) (k : Nat) (v : Int) : List (Nat × Int) :=
  if (m.lookup k).isSome then m else m ++ [(k, v)]

/-- Condition of the first `continue` in the loop: internal logs are skipped
unless `rebuild_internal_logs_` is set. -/
def skipInternal (rebuildInternalLogs : Bool) (e : LogEntry) : Bool :=
  !rebuildInternalLogs && e.isInternal

/-- Condition of the second `continue`: with `disable_data_log_rebuilding`,
a non-metadata log with a finite backlog is skipped (its backlog duration is
folded into `maxBacklogDuration_`). -/
def skipData (settings : RebuildingSettings) (e : LogEntry) : Bool :=
  settings.disable_data_log_rebuilding && !e.isMetaDataLog
    && e.backlogDuration.isSome

/-- Timestamp computed for a retained log: start from
`RecordTimestamp::min()`, replace by `now - backlog` when a backlog is
configured, then `storeMax(min_timestamp_)`. -/
def nextTimestamp (now minTs : Int) (e : LogEntry) : Int :=
  max minTs
    (match e.backlogDuration with
      | some b => now - (b : Int)
      | none => recordTimestampMin)

/-- Condition guarding `result_.emplace` in the loop:
`getLegacyShardIndexForLog(logid, num_shards_) == shard_idx_ ||
!use_legacy_log_to_shard_mapping_in_rebuilding`.  The legacy mapping itself
is not part of the source tree, so it is taken as a parameter. -/
def includeInShard (legacyShard : Nat → Nat → Nat)
    (settings : RebuildingSettings) (numShards shardIdx logid : Nat) : Bool :=
  legacyShard logid numShards == shardIdx
    || !settings.use_legacy_log_to_shard_mapping_in_rebuilding

/-- One iteration of the loop body of `RebuildingLogEnumerator::start`. -/
def enumeratorStep (legacyShard : Nat → Nat → Nat)
    (settings : RebuildingSettings) (rebuildInternalLogs : Bool)
    (numShards shardIdx : Nat) (now minTs : Int)
    (st : EnumState) (e : LogEntry) : EnumState :=
  if skipInternal rebuildInternalLogs e then
    { st with internalSkipped := st.internalSkipped + 1 }
  else if skipData settings e then
    { st with
        maxBacklogDuration := max st.maxBacklogDuration
          (e.backlogDuration.getD 0)
        dataSkipped := st.dataSkipped + 1 }
  else if includeInShard legacyShard settings numShards shardIdx e.logid then
    { st with result := emplace st.result e.logid (nextTimestamp now minTs e) }
  else st

/-- The initial state of the enumerator. -/
def enumInit : EnumState :=
  { result := [], maxBacklogDuration := 0, internalSkipped := 0,
    dataSkipped := 0 }

/-- The synchronous part of `RebuildingLogEnumerator::start`: the loop over
the local logs config. -/
def enumeratorStart (legacyShard : Nat → Nat → Nat)
    (settings : RebuildingSettings) (rebuildInternalLogs : Bool)
    (numShards shardIdx : Nat) (now minTs : Int)
    (logs : List LogEntry) : EnumState :=
  logs.foldl
    (enumeratorStep legacyShard settings rebuildInternalLogs numShards
      shardIdx now minTs)
    enumInit

/-- Outcome of one `RebuildingEnumerateMetadataLogsTask`, as delivered to
`onMetaDataLogsStorageTaskDone` (status plus log ids) or
`onMetaDataLogsStorageTaskDropped`. -/
inductive StorageTaskOutcome where
  | ok (log_ids : List Nat)
  | failed
  | dropped
deriving DecidableEq

/-- Whether an outcome is the success case. -/
def isOkOutcome : StorageTaskOutcome → Bool
  | .ok _ => true
  | _ => false

/-- The success path of `onMetaDataLogsStorageTaskDone`: each returned
metadata log id is emplaced with `min_timestamp_` as its timestamp. -/
def emplaceAll (m : List (Nat × Int)) (ls : List Nat) (minTs : Int) :
    List (Nat × Int) :=
  ls.foldl (fun acc l => emplace acc l minTs) m

/-- Observable behaviour of the metadata-log storage-task phase: how many
tasks were put on the queue, the model time elapsed before each retry
(milliseconds), and the arguments of the completion callback when it ran. -/
structure TaskRunResult where
  putTaskCount : Nat
  retryDelays : List Nat
  finalized : Option (List (Nat × Int) × Nat)
deriving DecidableEq

/-- The retry loop formed by `putStorageTask`,
`onMetaDataLogsStorageTaskDone` and `onMetaDataLogsStorageTaskDropped`,
run against a list of task outcomes supplied by the environment.  A failed
or dropped task causes `putStorageTask()` to be called again directly from
the callback (no timer is armed, so the model delay before the retry is 0);
a successful task leads to `finalize()`. -/
def runMetadataTasks (minTs : Int) (result : List (Nat × Int)) (maxB : Nat) :
    List StorageTaskOutcome → TaskRunResult
  | [] => { putTaskCount := 1, retryDelays := [], finalized := none }
  | .ok ls :: _ =>
      { putTaskCount := 1, retryDelays := [],
        finalized := some (emplaceAll result ls minTs, maxB) }
  | .failed :: rest =>
      let r := runMetadataTasks minTs result maxB rest
      { putTaskCount := r.putTaskCount + 1, retryDelays := 0 :: r.retryDelays,
        finalized := r.finalized }
  | .dropped :: rest =>
      let r := runMetadataTasks minTs result maxB rest
      { putTaskCount := r.putTaskCount + 1, retryDelays := 0 :: r.retryDelays,
        finalized := r.finalized }

/-- The whole enumerator: run the `start` loop, then either enumerate the
metadata logs through the storage task (when `rebuild_metadata_logs_`) or
call `finalize()` at once.  `finalize` hands `result_` together with
`maxBacklogDuration_` to the `onLogsEnumerated` callback. -/
def rebuildingLogEnumeratorRun (legacyShard : Nat → Nat → Nat)
    (settings : RebuildingSettings)
    (rebuildInternalLogs rebuildMetadataLogs : Bool)
    (numShards shardIdx : Nat) (now minTs : Int)
    (logs : List LogEntry) (outcomes : List StorageTaskOutcome) :
    TaskRunResult :=
  let st := enumeratorStart legacyShard settings rebuildInternalLogs
    numShards shardIdx now minTs logs
  if rebuildMetadataLogs then
    runMetadataTasks minTs st.result st.maxBacklogDuration outcomes
  else
    { putTaskCount := 0, retryDelays := [],
      finalized := some (st.result, st.maxBacklogDuration) }

/-- Backlog durations of the logs that the loop skips as data logs (not
skipped as internal first), stated independently of the fold: this is the
set over which the loop tracks the maximum. -/
def skippedDataBacklogs (settings : RebuildingSettings)
    (rebuildInternalLogs : Bool) (logs : List LogEntry) : List Nat :=
  (logs.filter (fun e =>
    !skipInternal rebuildInternalLogs e && skipData settings e)).filterMap
      (fun e => e.backlogDuration)

/-- The combined retain condition of the loop: the entry is not skipped as
internal, not skipped as a data log, and mapped to the shard being
rebuilt. -/
def includedEntry (legacyShard : Nat → Nat → Nat)
    (settings : RebuildingSettings) (rebuildInternalLogs : Bool)
    (numShards shardIdx : Nat) (e : LogEntry) : Bool :=
  !skipInternal rebuildInternalLogs e && !skipData settings e &&
    includeInShard legacyShard settings numShards shardIdx e.logid

/-- The contents of `result_` after the start loop, stated directly: one
entry per retained log, in configuration order. -/
def enumExpected (legacyShard : Nat → Nat → Nat)
    (settings : RebuildingSettings) (rebuildInternalLogs : Bool)
    (numShards shardIdx : Nat) (now minTs : Int)
    (logs : List LogEntry) : List (Nat × Int) :=
  (logs.filter
    (includedEntry legacyShard settings rebuildInternalLogs numShards
      shardIdx)).map
    (fun e => (e.logid, nextTimestamp now minTs e))

/-! ## Nodeset selectors

The selector implementations are not part of this source tree (only
`RandomNodeSetSelectorTest.cpp` is), so they are modelled from the
specification, with the rounding behaviour fixed by the expectation tables
of that test. -/

/-- Decision values of `NodeSetSelector::getStorageSet`. -/
inductive Decision where
  | KEEP
  | NEEDS_CHANGE
  | FAILED
deriving DecidableEq

/-- Modelled from the spec: the 64-bit non-cryptographic mixer used to seed
the selectors (a splitmix64-style finalizer over naturals reduced mod
2^64). -/
def forceN (n : Nat) (k : Nat → Nat) : Nat :=
  match n with
  | 0 => k 0
  | m + 1 => k (m + 1)

def mix64 (x0 : Nat) : Nat :=
  forceN (Nat.land (Nat.add x0 0x9E3779B97F4A7C15) 0xffffffffffffffff)
    fun x1 =>
  forceN (Nat.land (Nat.mul (Nat.xor x1 (Nat.shiftRight x1 30))
      0xBF58476D1CE4E5B9) 0xffffffffffffffff) fun x2 =>
  forceN (Nat.land (Nat.mul (Nat.xor x2 (Nat.shiftRight x2 27))
      0x94D049BB133111EB) 0xffffffffffffffff) fun x3 =>
  Nat.xor x3 (Nat.shiftRight x3 31)

/-- Division rounding to the nearest integer (exact halves round up). -/
def roundDiv (a b : Nat) : Nat := (2 * a + b) / (2 * b)

/-- Modelled from the spec: eligible shards of each domain after applying
the `exclude_nodes` option, dropping domains left empty.  A configuration
is a list of racks, each rack a list of node indices. -/
def eligibleRacks (racks : List (List Nat)) (excl : List Nat) :
    List (List Nat) :=
  (racks.map (fun rck => rck.filter (fun n => !excl.contains n))).filter
    (fun rck => !rck.isEmpty)

/-- Number of domains holding at least `k` eligible shards. -/
def nRacksWith (sizes : List Nat) (k : Nat) : Nat :=
  (sizes.filter (fun s => decide (k ≤ s))).length

/-- Modelled from the spec: a per-domain share `k` is feasible when enough
domains can supply it to satisfy the replication property (`rackReq`
domains at RACK scope, `r` shards in total). -/
def feasibleK (sizes : List Nat) (rackReq r k : Nat) : Bool :=
  decide (rackReq ≤ nRacksWith sizes k) &&
    decide (r ≤ k * nRacksWith sizes k)

/-- Modelled from the spec: among feasible per-domain shares up to `kcap`,
the cross-domain selector prefers the configuration with the largest total,
and on ties the one with the most domains (the smaller share). -/
def bestK (sizes : List Nat) (rackReq r kcap : Nat) : Option Nat :=
  (List.range kcap).foldl
    (fun best i =>
      let k := i + 1
      if feasibleK sizes rackReq r k then
        match best with
        | none => some k
        | some b =>
            if b * nRacksWith sizes b < k * nRacksWith sizes k then some k
            else best
      else best)
    none

/-- Smallest per-domain share whose total over `m` domains reaches `r`. -/
def minPerRack (r m : Nat) : Nat := (r + m - 1) / m

/-- The per-domain share targeted for a requested nodeset size `T` over `m`
domains: `T / m` rounded to the nearest integer, raised to the minimum
share meeting the total replication factor. -/
def targetShare (r T m : Nat) : Nat := max (minPerRack r m) (roundDiv T m)

/-- Modelled from the spec: the equal-shares nodeset for share `k`: every
domain holding at least `k` eligible shards contributes exactly `k`. -/
def crossDomainPick (eligible : List (List Nat)) (k : Nat) : List Nat :=
  eligible.foldr
    (fun rck acc => if k ≤ rck.length then rck.take k ++ acc else acc) []

/-- Modelled from the spec: `getStorageSet` of the RANDOM_CROSSDOMAIN
selector (no previous metadata, so the decision is `NEEDS_CHANGE` whenever
selection succeeds and `FAILED` when the replication property cannot be
met). -/
def getStorageSetCrossDomain (racks : List (List Nat)) (excl : List Nat)
    (rackReq r T : Nat) : Decision × Option (List Nat) :=
  let eligible := eligibleRacks racks excl
  let sizes := eligible.map List.length
  let m := eligible.length
  if m = 0 then (.FAILED, none)
  else
    match bestK sizes rackReq r (targetShare r T m) with
    | none => (.FAILED, none)
    | some k => (.NEEDS_CHANGE, some (crossDomainPick eligible k))

/-- Modelled from the spec: `getStorageSetSize` of the RANDOM_CROSSDOMAIN
selector, computed arithmetically (share times number of contributing
domains) without materialising the nodeset. -/
def getStorageSetSizeCrossDomain (racks : List (List Nat)) (excl : List Nat)
    (rackReq r T : Nat) : Nat :=
  let eligible := eligibleRacks racks excl
  let sizes := eligible.map List.length
  let m := eligible.length
  if m = 0 then 0
  else
    match bestK sizes rackReq r (targetShare r T m) with
    | none => 0
    | some k => k * nRacksWith sizes k

/-- The 26-node, 5-rack cluster of the `ImpreciseNodeSetSize` test: racks
of sizes 5, 5, 5, 5 and 6. -/
def s3Racks : List (List Nat) :=
  [[0, 1, 2, 3, 4], [5, 6, 7, 8, 9], [10, 11, 12, 13, 14],
   [15, 16, 17, 18, 19], [20, 21, 22, 23, 24, 25]]

/-- The expectation table of the `ImpreciseNodeSetSize` test, transcribed
from `check_ns_size_r3` and `check_ns_size_r6`: triples of replication
factor, requested nodeset size and expected returned size. -/
def impreciseExpectations : List (Nat × Nat × Nat) :=
  [(3, 1, 5), (3, 7, 5), (3, 8, 10), (3, 12, 10), (3, 13, 15), (3, 17, 15),
   (3, 18, 20), (3, 20, 20), (3, 22, 20), (3, 23, 25), (3, 26, 25),
   (3, 100, 25),
   (6, 1, 10), (6, 4, 10), (6, 5, 10), (6, 6, 10), (6, 10, 10), (6, 12, 10),
   (6, 26, 25)]

/-- The sizing rule asserted by the claim under scrutiny: the smallest
multiple of the 5 domains that is at least the requested size and meets the
replication factor, capped at the 25 usable nodes. -/
def claimedSmallestMultiple (r T : Nat) : Nat :=
  min 25 (max (5 * ((T + 4) / 5)) (5 * ((r + 4) / 5)))

/-! ### Consistent-hashing and weight-aware selectors -/

/-- A storage shard with its failure-domain (rack) index. -/
structure ShardInfo where
  node : Nat
  rack : Nat
deriving DecidableEq

/-- Modelled from the spec: position of a shard's virtual point on the
64-bit hash ring. -/
def shardPos (n : Nat) : Nat := mix64 (n + 1)

/-- Modelled from the spec: the ring-walk starting position for a log,
`hash(log_id)` with a selector salt. -/
def hashLog (logid : Nat) : Nat := mix64 (logid * 2 ^ 32 + 0xABCD)

/-- A point of the hash ring: position, owning node, owning rack. -/
structure RingPt where
  pos : Nat
  node : Nat
  rack : Nat
deriving DecidableEq

/-- The virtual point of a shard. -/
def toRingPt (s : ShardInfo) : RingPt := ⟨shardPos s.node, s.node, s.rack⟩

/-- Generic strict-total order on ring points: by an arbitrary key first,
then position, node and rack, so that distinct points are strictly
ordered whatever the key. -/
def keyLE (f : RingPt → Nat) (a b : RingPt) : Prop :=
  f a < f b ∨ (f a = f b ∧
    (a.pos < b.pos ∨ (a.pos = b.pos ∧
      (a.node < b.node ∨ (a.node = b.node ∧ a.rack ≤ b.rack)))))

instance (f : RingPt → Nat) : DecidableRel (keyLE f) := fun a b => by
  unfold keyLE; exact inferInstance

instance (f : RingPt → Nat) : IsTotal RingPt (keyLE f) :=
  ⟨by intro a b; unfold keyLE; omega⟩

instance (f : RingPt → Nat) : IsTrans RingPt (keyLE f) :=
  ⟨by intro a b c; unfold keyLE; omega⟩

instance (f : RingPt → Nat) : IsAntisymm RingPt (keyLE f) :=
  ⟨by
    intro a b hab hba
    unfold keyLE at hab hba
    have hp : a.pos = b.pos := by omega
    have hn : a.node = b.node := by omega
    have hr : a.rack = b.rack := by omega
    cases a; cases b; simp_all⟩

/-- Ring order: by position, then node, then rack. -/
abbrev ptLE : RingPt → RingPt → Prop := keyLE RingPt.pos

/-- Modelled from the spec: the sorted hash ring of a set of shards.  The
result depends only on the set of shards, not on enumeration order. -/
def ringOf (shards : List ShardInfo) : List RingPt :=
  List.insertionSort ptLE (shards.map toRingPt)

/-- The ring rotated so that the walk starts at the first point at or after
`start`, wrapping around. -/
def rotateFrom (start : Nat) (ring : List RingPt) : List RingPt :=
  ring.filter (fun p => decide (start ≤ p.pos)) ++
    ring.filter (fun p => decide (p.pos < start))

/-- State of a capped greedy walk: chosen shards as a bitmask over node
indices, how many were chosen, and how many per rack. -/
structure PickState where
  chosen : Nat
  count : Nat
  perRack : List Nat
deriving DecidableEq

/-- Per-rack counter lookup (racks beyond the list hold zero). -/
def rackCount (l : List Nat) (i : Nat) : Nat := l.getD i 0

/-- Increment the counter of rack `i`, growing the list as needed. -/
def bumpRack : List Nat → Nat → List Nat
  | [], 0 => [1]
  | [], i + 1 => 0 :: bumpRack [] i
  | x :: xs, 0 => (x + 1) :: xs
  | x :: xs, i + 1 => x :: bumpRack xs i

/-- The empty walk state. -/
def pickInit : PickState := ⟨0, 0, []⟩

/-- Modelled from the spec: walk the ring emitting the owning shard of each
point, skipping already-chosen shards and shards whose rack reached its
cap, stopping once `T` shards are chosen. -/
def chWalk (caps : Nat → Nat) (T : Nat) :
    List RingPt → PickState → PickState
  | [], st => st
  | p :: rest, st =>
    if st.count = T then st
    else if st.chosen.testBit p.node then chWalk caps T rest st
    else if rackCount st.perRack p.rack < caps p.rack then
      chWalk caps T rest
        ⟨st.chosen ||| (1 <<< p.node), st.count + 1, bumpRack st.perRack p.rack⟩
    else chWalk caps T rest st

/-- Modelled from the spec: the nodeset of the CONSISTENT_HASHING selector
as a bitmask over node indices — walk the sorted ring from `hash(log_id)`
under per-domain caps. -/
def selectCHmask (shards : List ShardInfo) (caps : Nat → Nat)
    (T logid : Nat) : Nat :=
  (chWalk caps T (rotateFrom (hashLog logid) (ringOf shards)) pickInit).chosen

/-! ### Packed-integer form of the ring walk

For bulk evaluation the ring and the walk state are packed into single
natural numbers, so that every step of the walk is a handful of arithmetic
and bit operations.  The walk ring holds 10 bits per point (7 bits of node
index, then 3 bits of rack index); the position ring holds the 64-bit
positions, 64 bits per point, for locating the walk start.  Both are in
ring order `ptLE`, first point in the low bits. -/

/-- The node/rack walk ring of a sorted ring, 10 bits per point. -/
def packWalkRing : List RingPt → Nat
  | [] => 0
  | p :: rest =>
      (((p.node &&& 127) <<< 3) ||| (p.rack &&& 7)) + (packWalkRing rest) <<< 10

/-- The position ring of a sorted ring, 64 bits per point. -/
def packPosRing : List RingPt → Nat
  | [] => 0
  | p :: rest => (p.pos &&& (2 ^ 64 - 1)) + (packPosRing rest) <<< 64

/-- Index of the first ring point whose position is at least `start`,
located by binary search over `[lo, hi)` of the position ring (`hi` when
there is none, which wraps to the first point). -/
def ringLowerBound (posRing start : Nat) : Nat → Nat → Nat → Nat
  | 0, lo, _ => lo
  | f + 1, lo, hi =>
    cond (Nat.beq lo hi) lo
      (forceN ((lo + hi) / 2) fun mid =>
       cond (Nat.ble start
              (Nat.land (Nat.shiftRight posRing (Nat.mul 64 mid))
                0xffffffffffffffff))
         (ringLowerBound posRing start f lo mid)
         (ringLowerBound posRing start f (Nat.add mid 1) hi))

/-- Three copies of a packed walk ring laid end to end, so that a walk of
up to two full traversals starting anywhere needs no index wraparound. -/
def tripleRing (ring size : Nat) : Nat :=
  ring + (ring <<< (10 * size)) + (ring <<< (20 * size))

/-- The capped greedy ring walk on the packed representation, written with
primitive operations only.  Fixed arguments: tripled walk ring, per-rack
caps (a nibble per rack index), target size; then fuel, current index,
chosen bitmask, chosen count and per-rack counters (a nibble per rack).
A point is skipped when its node is already chosen or its rack reached the
cap; the walk stops once `T` shards are chosen. -/
def walkFast (ring3 caps T : Nat) : Nat → Nat → Nat → Nat → Nat → Nat
  | 0, _, chosen, _, _ => chosen
  | f + 1, i, chosen, cnt, rc =>
    cond (Nat.beq cnt T) chosen
      (forceN (Nat.land (Nat.shiftRight ring3 (Nat.mul 10 i)) 1023) fun e =>
       forceN (Nat.shiftRight e 3) fun nd =>
       cond (Nat.beq (Nat.land (Nat.shiftRight chosen nd) 1) 1)
         (walkFast ring3 caps T f (i + 1) chosen cnt rc)
         (forceN (Nat.mul 4 (Nat.land e 7)) fun rs =>
          cond (Nat.ble (Nat.add (Nat.land (Nat.shiftRight rc rs) 15) 1)
                 (Nat.land (Nat.shiftRight caps rs) 15))
            (walkFast ring3 caps T f (i + 1)
              (Nat.lor chosen (Nat.shiftLeft 1 nd)) (Nat.add cnt 1)
              (Nat.add rc (Nat.shiftLeft 1 rs)))
            (walkFast ring3 caps T f (i + 1) chosen cnt rc)))

/-- The CONSISTENT_HASHING selector: walk the sorted ring of the shards
starting at the first virtual point at or after `hash(log_id)`, under
per-rack caps, for at most two full traversals; the nodeset is returned as
a bitmask over node indices. -/
def selectCHfast (shards : List ShardInfo) (caps T logid : Nat) : Nat :=
  walkFast (tripleRing (packWalkRing (ringOf shards)) (ringOf shards).length)
    caps T (2 * (ringOf shards).length)
    (ringLowerBound (packPosRing (ringOf shards)) (hashLog logid)
      (ringOf shards).length 0 (ringOf shards).length)
    0 0 0

/-- Rank key of a shard in the weight-aware selector's seeded draw for a
given log: `hash(log_id, shard, salt)`. -/
def waKey (logid : Nat) (p : RingPt) : Nat := mix64 (hashLog logid ^^^ p.pos)

/-- Order used by the weight-aware selector's seeded draw for a log. -/
abbrev waLE (logid : Nat) : RingPt → RingPt → Prop := keyLE (waKey logid)

/-- Modelled from the spec: the nodeset of the WEIGHT_AWARE selector as a
bitmask — a weighted draw seeded by `hash(log_id, domain, salt)`, realised
as a greedy capped take in the seeded rank order. -/
def selectWAmask (shards : List ShardInfo) (caps : Nat → Nat)
    (T logid : Nat) : Nat :=
  (chWalk caps T
    (List.insertionSort (waLE logid) (shards.map toRingPt)) pickInit).chosen

/-! ### The AddNode churn experiment (ConsistentHashingWeightAware AddNode)

79 single-shard nodes in racks of 16, 16, 16, 16 and 15; one node is then
added to the fifth rack.  10000 logs, each with nodeset size 21. -/

/-- Rack of a node in the AddNode clusters. -/
def chRackOf (n : Nat) : Nat := n / 16

/-- The 79-node cluster. -/
def chShards79 : List ShardInfo :=
  (List.range 79).map (fun n => ⟨n, chRackOf n⟩)

/-- The 80-node cluster (node 79 joins the fifth rack). -/
def chShards80 : List ShardInfo :=
  (List.range 80).map (fun n => ⟨n, chRackOf n⟩)

/-- The sorted ring of the 79-node cluster, computed once. -/
def chRing79 : List RingPt := ringOf chShards79

/-- The sorted ring of the 80-node cluster, computed once. -/
def chRing80 : List RingPt := ringOf chShards80

/-- The position ring of the 79-node cluster, as an integer literal so
that bulk evaluation unfolds it in one step; the claim theorem for the
churn experiment checks it equals `packPosRing chRing79`. -/
def chPos79 : Nat :=
  9989851317674197006472192843265059461419165938942221823231405814200907799819876681261859440153622929888624051481062636752990679973479309474298163482397483587807975299237688955837721499025861438354340379726500933205368360151832799959853814514738752880027987120483119869323025896289490422410344158074406631100498680983514254919804378181772595247660968651928181388915487522709241362585456697529447592220604743691215286617925883788229186949703172121676651513282060984342264509210056259798770033610761171554706654707920779845830294482533349271681191871842298903629794175371811961434568741092472920756950465627026390986791754720995783406957544127294644403716162712981090057557972533255081390240479911161931533361724046121020222173171468305194461811704325737541008192788268565514452690706911275827438134260664750953581156098308985945577850367745101973670129197987064151242320119215548686307454985609518552897806537965368638877278467569981795459487053015817857069109164260548180325321439194851272880064554822201949978051520100021874857714735039546721813176249702959511403047700951373308407787277220930599925767126006894400566728214614368723885893349882209621113269625861847052014618241490418133829207544466221723641157990517983553432036309459265398202341364297599704849277403774557244952416185369687282481506035170774351298958453603290132516418022596640687001004115909122696913778829793386907219271929634186651837290097400215088729477644801462608534003872186420453093910418246787145351857728001225388478702260629620789603230809891

/-- The position ring of the 80-node cluster (literal, checked against
`packPosRing chRing80`). -/
def chPos80 : Nat :=
  184280230591546048920230721818257460478928929109971969152493799735872645524964830515687313796723011276325728709940666962009837978130324779041263474233753192568278865447405866935579233578699992685073925682920807047684090064593928262567430959419517470045765089412740840732549046878803531992510338804887017927722876184115434090150633512481447284961369827295886740584746659977888259666765896206068741709301545746015956900735622232461735614452303070860762641196788783893962419124179747902595232467681681837921017796678827148974254111597155193324250292978209265799565089432602871214540613637593144762692180572717461872687086831147751072305288456317854873954599915694900821601393133738823615244568369894254038053069571608400026272251728156596902077520722735538452834754304509301169321661663119895249700893197131331871809419256116462881873591780763503194566229813693804019128338140980348953216590895827918345529794438074260892065941602730219119155384806808135813807743059765965282380875729846901146512023905840195612751518797006211678217321243907058406806371765261909796372604621405958739907760107022483232202924682640471781871337642632589647247112852405521287723662432115768295144178986224698985769086616457585432530590378002089697808441034753162826796778941594126228410676690400950917467525019066387179953846702235633916431271550567183640892963213307704694306011538063767899256660598529213467605660727116191987311738347354801599526350741930899618872947026737545388565947493370656140365254497844109441386685616433670070585566950685280754376957755171

/-- The tripled walk ring of the 79-node cluster (literal, checked against
`tripleRing (packWalkRing chRing79) 79`). -/
def chWalk3x79 : Nat :=
  93404927576962950838657472117536299557903005117076791090695185524865792443188772043531387924896148073314131524638547865056990308806483045895551947185928431680405960333863571859622058752413705357097137861435494375650792487020551579535043266628874579221020644473631998494289293791138579406867255883006835126439677010639884677872369409025156461936787629658758064623740979905851653149803082507094959138666495868218939391738405585785432954803823055321023273166332305303691257052837333284016330878507719909633178787769860175320812940812082281527024967618739333308245182392342893737242355944400755930563725435923551609971657185205916065364851199956426225508696753174580300182154236370041103051054480946765316117031842170

/-- The tripled walk ring of the 80-node cluster (literal, checked against
`tripleRing (packWalkRing chRing80) 80`). -/
def chWalk3x80 : Nat :=
  100292777307076099213922403822712568673513166329491367213790105248747763255057092687129285643942782294270194841392653853304920706844521644630829376549101292187249073592301576977566902319764257093114508195206593253636977516866068690903169718317186870601657108734992790891995595848889323854535908501875241814963548921290681782531557747823525526758484856268566362098960176149738060203415594606902169299596436245702813637264618666322773733429432077292541289990297307882301066305081959691197891321403482857953727052497712535710585703661424480465798677606487820803363575154702545054891501917853698076263921318905924864298986643225035423464357302885608863233952858689224707522855603222000643251040979843381003637765774585275904378

/-- Per-rack caps for nodeset size 21 over 5 racks: 5 shards per rack
(one nibble per rack). -/
def chCaps : Nat := 0x55555

/-- Table of the 79-node walk results for every possible start index
0..79, 80 bits per entry (a walk's outcome depends only on where on the
ring it starts, so the 10000-log experiment only ever needs these 80
walks; the theorem `chWalkTab79_spec` checks every entry against
`walkFast` itself). -/
def chWalkTab79 : Nat := 32154025231970550869346768819583741328705309327270242617997575165850772894291915544855978836792557013111416417338483018844473375513978503739319190502647618851937364084320982813139376340793445241280074687439383382764432773875875965770702248271337941323542940559562369432375075147603731546042237308343664773445768200921495747451999078781401384657599550773117357781361930577693091051674348711233076136823887920184470341185576853773704319426019490118732811065581059475304911353458111859728335489546406797834977240263155960144052809281360367499433500082597347449368483696178582435183066890120851538583674778133130698908691865456184170094648835938222202937838198753467658273414847211624578407450500912154855935741922185979568649381803790626269959276972537616241130498300731348048500541501895311910956989556319789882003233190406769079158403029982422139644181987739927171886817327084486771072072713968150150008759739292109115758719793567403988017972602979052384358475666969697467722465971453661355653734720999070374784115618370742068241267388651074730937265814139607390272047045173189901655334310434613071162254451400651865528524018070018788405031671397213009922958525200252705465945237568991858983555262399012276192049520539819431287723494651875464755662089306624053793099396433716650234786433204648563483308326798255541276648207443453525214886638439046733947631038424314390259115541132237202141606320187433691251505221528921541504436247339904454092556487335121088106775052154663346142524985526357119913868481724761340335183849229072594260346467644584650600075258211326966607691633691207301499976590603059815583572465391234322669684394088889308705500922907232218811684877876788141822949763962059073684301881732994020376272834080426609047728081621379361733089878869755333046442564217329676188338296079667296628015860091975018471693600656448599701204272244796093646090856160948577563811878500004808462934363923694358594320727168124420

/-- Table of the 80-node walk results for every possible start index
0..80, 80 bits per entry (checked entrywise against `walkFast` by
`chWalkTab80_spec`). -/
def chWalkTab80 : Nat := 38871831307469465185413823485582559894750748062748691969065828111964044462211683616743910217928187293403418667948369167623906105332756698154114278514843243526586637072769704483528636540860444484414696879992180563368856781323358308354676683589238137199384891023447262109363779356296444139191758613477616483896547735675941259374108924657924170307759132564514573865366198244036642464910873403249433600479509745632123428148287738290396545031454811061297405654196494083093108235101047681567793515090722083570171912808597756655280911723830746989787659770982663472090522141918562545499335673897608944724183575915912854933640460756979994761140943813492696804906696218795990414016558864797909970056472995843659789492807925713113550662251068610013066559944933437270396860584069427082651132951454215561661969069888144403092505714749778991226768865748609073408562067897895269293577367065152153205593063182731018039495018036272132396996774769964571297675641382649632048469552264891372546214314177567487914639865135645857431919549625954213415587110586064994404628875265261842359425614758151405642354205524716947244248744747364667160772693695069111011117000498310692182763608680650737731247464333655474177937115768552702116719319269357262527968019094822536287034037180341966952224758270812430073513020534928164387416037949009141014780827908298833104130370711240341656666836127861362627177288391626477485375883064650109322381492304776247707291255824520490369844621138725614824296699593815987892919402717308338818745045922024867731820311068070274452702524986916328805568387163505643044892379940190943661031086876976712477019839680193126668651768218220066012396608440153538546121382096914148150085184246633169178485198937386827756657722979637621767874451950208909920083624258725720124492998790838724021356741219581500294206499239282115178633467975963844543096615018573532257935084439542198117138462392686773338356071946972084463950496698187232403071334894105932727812

/-- Entry `s` of the 79-node walk table. -/
def walkLook79 (s : Nat) : Nat :=
  Nat.land (Nat.shiftRight chWalkTab79 (Nat.mul 80 s)) 0xffffffffffffffffffff

/-- Entry `s` of the 80-node walk table. -/
def walkLook80 (s : Nat) : Nat :=
  Nat.land (Nat.shiftRight chWalkTab80 (Nat.mul 80 s)) 0xffffffffffffffffffff

/-- Nodeset of a log in the old (79-node) configuration: the tabled walk
result for the ring start index of the log's hash. -/
def selOldP (logid : Nat) : Nat :=
  walkLook79 (ringLowerBound chPos79 (hashLog logid) 79 0 79)

/-- Nodeset of a log in the new (80-node) configuration. -/
def selNewP (logid : Nat) : Nat :=
  walkLook80 (ringLowerBound chPos80 (hashLog logid) 80 0 80)

/-- Constant-time population count for numbers below 2^128, by the usual
bit-slice reduction. -/
def pop128 (x : Nat) : Nat :=
  forceN (Nat.sub x (Nat.land (Nat.shiftRight x 1)
      0x55555555555555555555555555555555)) fun a =>
  forceN (Nat.add (Nat.land a 0x33333333333333333333333333333333)
      (Nat.land (Nat.shiftRight a 2) 0x33333333333333333333333333333333))
    fun b =>
  forceN (Nat.land (Nat.add b (Nat.shiftRight b 4))
      0x0f0f0f0f0f0f0f0f0f0f0f0f0f0f0f0f) fun c =>
  Nat.land
    (Nat.shiftRight (Nat.mul c 0x01010101010101010101010101010101) 120) 255

/-- Spread one byte of an 80-bit mask into eight 14-bit counter lanes
(bit j of the byte lands at lane j). -/
def spreadByte (b : Nat) : Nat :=
  Nat.land (Nat.mul b 0x80040020010008004002001)
    0x4001000400100040010004001

/-- Spread an 80-bit mask into 80 14-bit counter lanes, one lane per
node index, byte by byte. -/
def spread80 (m : Nat) : Nat :=
  (Nat.add (Nat.add (Nat.add (Nat.add (Nat.add (Nat.add (Nat.add (Nat.add (Nat.add (spreadByte (Nat.land m 255))
    (Nat.shiftLeft (spreadByte (Nat.land (Nat.shiftRight m 8) 255)) 112))
    (Nat.shiftLeft (spreadByte (Nat.land (Nat.shiftRight m 16) 255)) 224))
    (Nat.shiftLeft (spreadByte (Nat.land (Nat.shiftRight m 24) 255)) 336))
    (Nat.shiftLeft (spreadByte (Nat.land (Nat.shiftRight m 32) 255)) 448))
    (Nat.shiftLeft (spreadByte (Nat.land (Nat.shiftRight m 40) 255)) 560))
    (Nat.shiftLeft (spreadByte (Nat.land (Nat.shiftRight m 48) 255)) 672))
    (Nat.shiftLeft (spreadByte (Nat.land (Nat.shiftRight m 56) 255)) 784))
    (Nat.shiftLeft (spreadByte (Nat.land (Nat.shiftRight m 64) 255)) 896))
    (Nat.shiftLeft (spreadByte (Nat.land (Nat.shiftRight m 72) 255)) 1008))

/-- Churn contribution of one log, mirroring `compare_nodesets`, added
onto a packed accumulator (the log's hash is taken once and both
nodesets are the tabled walk results, exactly `selOldP` and `selNewP`
of the log; `churnStepN_spec` states this): bits 0..23 count shards removed (in the old but
not the new nodeset), bits 24..47 count shards added (in the new but not
the old), bits 48..63 count nodesets whose size differed from 21, and bits
64 and up hold the per-node selection frequencies over the new nodesets,
one 14-bit lane per node. -/
def churnStepN (acc logid : Nat) : Nat :=
  forceN (hashLog logid) fun h =>
  forceN (walkLook79 (ringLowerBound chPos79 h 79 0 79)) fun o =>
  forceN (walkLook80 (ringLowerBound chPos80 h 80 0 80)) fun n =>
  forceN (pop128 o) fun co =>
  forceN (pop128 n) fun cn =>
  forceN (pop128 (Nat.land o n)) fun common =>
    Nat.add
      (Nat.add
        (Nat.add (Nat.add acc (Nat.sub co common))
          (Nat.shiftLeft (Nat.sub cn common) 24))
        (Nat.shiftLeft
          (Nat.add (cond (Nat.beq co 21) 0 1) (cond (Nat.beq cn 21) 0 1))
          48))
      (Nat.shiftLeft (spread80 n) 64)

/-- Run the churn experiment for logs `logid, logid + 1, ...` while fuel
lasts. -/
def churnChunk : Nat → Nat → Nat → Nat
  | 0, _, acc => acc
  | f + 1, logid, acc =>
      forceN (churnStepN acc logid) (churnChunk f (logid + 1))

/-- Run the churn experiment over `chunks` chunks of 100 logs starting at
`logid` (chunking keeps reduction depth bounded). -/
def churnPackedGo : Nat → Nat → Nat → Nat
  | 0, _, acc => acc
  | f + 1, logid, acc =>
      forceN (churnChunk 100 logid acc) (churnPackedGo f (logid + 100))

/-- The churn experiment over logs 1..10000, as a packed accumulator. -/
def churnTotal : Nat := churnPackedGo 100 1 0

/-- Total shards removed, decoded from the packed accumulator. -/
def churnRemoved (acc : Nat) : Nat := acc &&& 0xffffff

/-- Total shards added, decoded from the packed accumulator. -/
def churnAdded (acc : Nat) : Nat := (acc >>> 24) &&& 0xffffff

/-- Number of nodesets whose size was not exactly 21, decoded from the
packed accumulator. -/
def churnBadSizes (acc : Nat) : Nat := (acc >>> 48) &&& 0xffff

/-- The packed per-node selection frequencies, decoded from the packed
accumulator. -/
def churnFreqs (acc : Nat) : Nat := acc >>> 64

/-- Per-node selection frequency: counter lane `i` of the packed
frequencies. -/
def lane (fp i : Nat) : Nat := (fp >>> (14 * i)) &&& 16383

/-- Whether every one of the low `n` counter lanes lies within
`[lo, hi]`. -/
def lanesWithin (fp lo hi : Nat) : Nat → Bool
  | 0 => true
  | i + 1 =>
      (decide (lo ≤ lane fp i) && decide (lane fp i ≤ hi)) &&
        lanesWithin fp lo hi i

/-- Checkpoint of the churn experiment after logs 1..1000: the packed
accumulator value, written as a literal so each segment of the computation
can be verified independently. -/
def churnCk1 : Nat := 3447948405856889875653057003800258358013783212147504671278611257106199516144141166431399441381404582800338667552934872107233646226858090239043166466968983262532945687848862680075682072470534742164444257771507817677216811875397032457566238131850389655616567687358398497474837852452725046024273087964580328567675219611157530436653145044328853506772200063191

/-- Checkpoint of the churn experiment after logs 1001..2000: the packed
accumulator value, written as a literal so each segment of the computation
can be verified independently. -/
def churnCk2 : Nat := 6767629697864394008939629342698763392636465848089725595960482254281589433382869436773792353901867655809815327013775530758824235527827599872309721444540427933328935747417574240211514904289379628454941571051893055912300395027617007220326145702801115279820413582763945414583160652001540123740234205759974984640261473833141519200102878316114595686708204798374

/-- Checkpoint of the churn experiment after logs 2001..3000: the packed
accumulator value, written as a literal so each segment of the computation
can be verified independently. -/
def churnCk3 : Nat := 10167460440473275292292493486871345578972733387881218891298032067959568046155946935554971344123524224819442115577585061782330437405991998847381763201392566091062749725180174707902138873578911786187913860711242809564290104452132902733645981207697566860839248585566040713188796951838528817174204835483020029465955224654480926111991900309039880871405852557946

/-- Checkpoint of the churn experiment after logs 3001..4000: the packed
accumulator value, written as a literal so each segment of the computation
can be verified independently. -/
def churnCk4 : Nat := 13406939427315625429505736481772987201046935132411425058979306813528901989043811404831824148616299224993901666448323835343561177840497921922613920035339905453685277321029204149405600729366438263020754935071136373625343939456953885955470512498549323880468709680722366750824127923063508764841291618690862060599226830304102665464782161530426714194352868950852

/-- Checkpoint of the churn experiment after logs 4001..5000: the packed
accumulator value, written as a literal so each segment of the computation
can be verified independently. -/
def churnCk5 : Nat := 16614388582646504396802951379639868295064979594231105155690269574356510343308183616054182009069721975908471317217795305265662751043416631622523303497367078363690938308975608948760145035436820552455289234127773526886120479478819901147451930636840833755393493799712915039946719892372799603055988617069119768572251743472869204587523668289514972541153747928076

/-- Checkpoint of the churn experiment after logs 5001..6000: the packed
accumulator value, written as a literal so each segment of the computation
can be verified independently. -/
def churnCk6 : Nat := 19821815226919253851816457557981554714318124838899900386813183897869499659587661043470025555281369925341477535431401172611889126458894461359178726492390650603043508109230245634283810685737129595504717084040149287581159014091509722022513525018951902928257003748281010349598177516452919902781918727703241289004110048085896536011530882134268428254355776341204

/-- Checkpoint of the churn experiment after logs 6001..7000: the packed
accumulator value, written as a literal so each segment of the computation
can be verified independently. -/
def churnCk7 : Nat := 23029256552431131678966853371886851353418834110258877042494848390051523799170356743383737786738659739272284574480165559220697163746158513089460063725283392555484023603074233302306115258653104859939878248681685841659018600773109184863594344275801203094428725619300416084183331708774235337277818924846466964917667933778649681570609751750688784127462542935452

/-- Checkpoint of the churn experiment after logs 7001..8000: the packed
accumulator value, written as a literal so each segment of the computation
can be verified independently. -/
def churnCk8 : Nat := 26380994100424228292110523793262991261314957142634222814320286571693505649629606452963595563220498027558272681169983636613936895488010328874326031287472922159618871497723449320109378700055360707347340367138265128296272002125448084214857457068918156512820861948804300792647827231440898535747567819250959224345217279464764809351886669875976506836892455536237

/-- Checkpoint of the churn experiment after logs 8001..9000: the packed
accumulator value, written as a literal so each segment of the computation
can be verified independently. -/
def churnCk9 : Nat := 29428088563657136085870754382523434832083124125533613629468116438914444471985827116728341935310207545158547047101080529653736210173160699951383673095697429055026106667577148445813930973308632410412111133488680968183077957293558132935546832999143466365924516866277783448430316545455817323068803957806622059147092951135152419850976530368899842153751406184235

/-- Checkpoint of the churn experiment after logs 9001..10000: the packed
accumulator value, written as a literal so each segment of the computation
can be verified independently. -/
def churnCk10 : Nat := 32619486101269367984651941553898076564634309778215701167623290253346094775379893777945913093533520849065276548541222238348991343707091024038807511457543086081282355983140510427831047043649740522757204867347416983340538217499505296480631846422879929664038500946746481456575156340927544698792085695358989418214170381128590992873446141559255864903956852377586

/-! ## Rebuilding supervisor trigger-queue throttle

Modelled from the spec: the supervisor implementation is not part of this
source tree (only `RebuildingSupervisorIntegrationTest.cpp` is).  The model
covers the trigger queue, pre-fire gate 6 (the trigger-queue threshold),
the `rebuilding_supervisor_throttled` stat and the leadership-loss reset. -/

/-- Supervisor state: the queue of distinct scheduled triggers (node
indices), the throttled flag, the `rebuilding_supervisor_throttled` stat,
the triggers fired so far (`SHARD_NEEDS_REBUILD` appends, the
`shard_rebuilding_triggered` stat is its length) and leadership. -/
structure SupervisorState where
  queue : List Nat
  throttled : Bool
  statThrottled : Nat
  fired : List Nat
  isLeader : Bool
deriving DecidableEq

/-- Events driving the supervisor: a failure-detector DEAD transition for a
storage node, a node returning ALIVE (cancelling its trigger), expiry of
the self-initiated-rebuilding grace period (the pre-fire evaluation), and
loss of leadership. -/
inductive SupervisorEvent where
  | nodeDead (n : Nat)
  | nodeAlive (n : Nat)
  | graceExpired
  | leadershipLost
deriving DecidableEq

/-- Modelled from the spec: one supervisor transition.  A DEAD node is
scheduled once; an ALIVE node is cancelled; at grace expiry the leader
enters throttled mode (stat 1, nothing fires) while the count of distinct
scheduled triggers exceeds `max_rebuilding_trigger_queue_size`, and
otherwise exits throttled mode (stat 0) and fires the pending triggers;
losing leadership cancels all pending triggers and resets the stat. -/
def supervisorStep (maxQueue : Nat) (st : SupervisorState) :
    SupervisorEvent → SupervisorState
  | .nodeDead n =>
      if st.queue.contains n then st
      else { st with queue := st.queue ++ [n] }
  | .nodeAlive n => { st with queue := st.queue.erase n }
  | .graceExpired =>
      if !st.isLeader then st
      else if maxQueue < st.queue.length then
        { st with throttled := true, statThrottled := 1 }
      else
        { st with
            throttled := false
            statThrottled := 0
            fired := st.fired ++ st.queue
            queue := [] }
  | .leadershipLost =>
      { st with
          isLeader := false
          queue := []
          throttled := false
          statThrottled := 0 }

/-- Run the supervisor over a sequence of events. -/
def supervisorRun (maxQueue : Nat) (st : SupervisorState)
    (evs : List SupervisorEvent) : SupervisorState :=
  evs.foldl (supervisorStep maxQueue) st

/-- Initial supervisor state of a freshly elected leader. -/
def supervisorInit : SupervisorState :=
  { queue := [], throttled := false, statThrottled := 0, fired := [],
    isLeader := true }

/-- The `RebuildingTriggerQueueThreshold` scenario up to the throttled
observation: nodes 1 and 3 die simultaneously, then several grace periods
elapse. -/
def throttleEventsPhase1 : List SupervisorEvent :=
  [.nodeDead 1, .nodeDead 3, .graceExpired, .graceExpired]

/-- The same scenario continued: node 3 comes back and the next grace
period expires. -/
def throttleEventsPhase2 : List SupervisorEvent :=
  throttleEventsPhase1 ++ [.nodeAlive 3, .graceExpired]

/-- The `RebuildingTriggerQueueThresholdResetOnNonLeader` scenario on node
1: nodes 0 and 3 die, the queue throttles, then node 0 comes back and
takes leadership away; further grace periods fire nothing. -/
def throttleLeaderLossEvents : List SupervisorEvent :=
  [.nodeDead 0, .nodeDead 3, .graceExpired, .graceExpired, .nodeAlive 0,
   .leadershipLost, .graceExpired]


/-! ## Theorems

Helper lemmas first, then one theorem per claim (with witnesses and
counterexamples where needed). -/

/-! ### Association-list lemmas for the result map -/

theorem lookup_cons_self {a k : Nat} {b : Int} {l : List (Nat × Int)}
    (h : k = a) : List.lookup k ((a, b) :: l) = some b := by
  simp [List.lookup, h]

theorem lookup_cons_ne {a k : Nat} {b : Int} {l : List (Nat × Int)}
    (h : k ≠ a) : List.lookup k ((a, b) :: l) = List.lookup k l := by
  have hb : (k == a) = false := by simpa using h
  simp [List.lookup, hb]

theorem lookup_append_of_some {m1 m2 : List (Nat × Int)} {k : Nat} {v : Int}
    (h : m1.lookup k = some v) : (m1 ++ m2).lookup k = some v := by
  induction m1 with
  | nil => simp [List.lookup] at h
  | cons p rest ih =>
    obtain ⟨a, b⟩ := p
    by_cases hk : k = a
    · rw [lookup_cons_self hk] at h
      rw [List.cons_append, lookup_cons_self hk]
      exact h
    · rw [lookup_cons_ne hk] at h
      rw [List.cons_append, lookup_cons_ne hk]
      exact ih h

theorem lookup_append_of_none {m1 m2 : List (Nat × Int)} {k : Nat}
    (h : m1.lookup k = none) : (m1 ++ m2).lookup k = m2.lookup k := by
  induction m1 with
  | nil => simp
  | cons p rest ih =>
    obtain ⟨a, b⟩ := p
    by_cases hk : k = a
    · rw [lookup_cons_self hk] at h
      cases h
    · rw [lookup_cons_ne hk] at h
      rw [List.cons_append, lookup_cons_ne hk]
      exact ih h

theorem lookup_singleton_ne {k a : Nat} {b : Int} (h : k ≠ a) :
    ([(a, b)] : List (Nat × Int)).lookup k = none := by
  have hb : (k == a) = false := by simpa using h
  simp [List.lookup, hb]

theorem emplace_lookup_self (m : List (Nat × Int)) (k : Nat) (v : Int) :
    (emplace m k v).lookup k = some ((m.lookup k).getD v) := by
  unfold emplace
  cases h : m.lookup k with
  | some w => simp [h]
  | none =>
    simp only [h, Option.isSome_none, Bool.false_eq_true, if_false,
      Option.getD_none]
    rw [lookup_append_of_none h]
    simp [List.lookup]

theorem emplace_lookup_other (m : List (Nat × Int)) (k : Nat) (v : Int)
    {k2 : Nat} (hne : k2 ≠ k) : (emplace m k v).lookup k2 = m.lookup k2 := by
  unfold emplace
  cases h : m.lookup k with
  | some w => simp
  | none =>
    simp only [h, Option.isSome_none, Bool.false_eq_true, if_false]
    cases h2 : m.lookup k2 with
    | some w2 => exact lookup_append_of_some h2
    | none => rw [lookup_append_of_none h2, lookup_singleton_ne hne]

theorem lookup_some_mem {l : List (Nat × Int)} {k : Nat} {v : Int}
    (h : l.lookup k = some v) : (k, v) ∈ l := by
  induction l with
  | nil => simp [List.lookup] at h
  | cons p rest ih =>
    obtain ⟨a, b⟩ := p
    by_cases hk : k = a
    · rw [lookup_cons_self hk] at h
      cases h
      simp [hk]
    · rw [lookup_cons_ne hk] at h
      exact List.mem_cons_of_mem _ (ih h)

theorem lookup_of_mem_nodup {l : List (Nat × Int)} {k : Nat} {v : Int}
    (hmem : (k, v) ∈ l) (hnd : (l.map Prod.fst).Nodup) :
    l.lookup k = some v := by
  induction l with
  | nil => cases hmem
  | cons p rest ih =>
    obtain ⟨a, b⟩ := p
    simp only [List.map_cons, List.nodup_cons] at hnd
    rcases List.mem_cons.mp hmem with heq | hmem2
    · injection heq with h1 h2
      subst h1; subst h2
      exact lookup_cons_self rfl
    · have hka : k ≠ a := by
        intro hEq
        exact hnd.1 (hEq ▸ List.mem_map_of_mem Prod.fst hmem2)
      rw [lookup_cons_ne hka]
      exact ih hmem2 hnd.2

/-! ### Characterisation of the enumerator start loop -/

theorem enumeratorStart_go_result (legacyShard : Nat → Nat → Nat)
    (settings : RebuildingSettings) (rebuildInternalLogs : Bool)
    (numShards shardIdx : Nat) (now minTs : Int) :
    ∀ (logs : List LogEntry) (st : EnumState),
      (logs.map LogEntry.logid).Nodup →
      (∀ e ∈ logs, st.result.lookup e.logid = none) →
      (logs.foldl
        (enumeratorStep legacyShard settings rebuildInternalLogs numShards
          shardIdx now minTs) st).result =
        st.result ++ enumExpected legacyShard settings rebuildInternalLogs
          numShards shardIdx now minTs logs := by
  intro logs
  induction logs with
  | nil => intro st _ _; simp [enumExpected]
  | cons e rest ih =>
    intro st hnd hdisj
    have hndr : (rest.map LogEntry.logid).Nodup := by
      simp only [List.map_cons, List.nodup_cons] at hnd
      exact hnd.2
    have hnotin : e.logid ∉ rest.map LogEntry.logid := by
      simp only [List.map_cons, List.nodup_cons] at hnd
      exact hnd.1
    rw [List.foldl_cons]
    by_cases h1 : skipInternal rebuildInternalLogs e = true
    · have hstep : enumeratorStep legacyShard settings rebuildInternalLogs
          numShards shardIdx now minTs st e =
          { st with internalSkipped := st.internalSkipped + 1 } := by
        simp [enumeratorStep, h1]
      rw [hstep, ih { st with internalSkipped := st.internalSkipped + 1 }
        hndr (fun e2 he2 => hdisj e2 (List.mem_cons_of_mem _ he2))]
      simp [enumExpected, includedEntry, h1]
    · by_cases h2 : skipData settings e = true
      · have hstep : enumeratorStep legacyShard settings rebuildInternalLogs
            numShards shardIdx now minTs st e =
            { st with maxBacklogDuration := max st.maxBacklogDuration (e.backlogDuration.getD 0), dataSkipped := st.dataSkipped + 1 } := by
          simp [enumeratorStep, h1, h2]
        rw [hstep, ih { st with maxBacklogDuration := max st.maxBacklogDuration (e.backlogDuration.getD 0), dataSkipped := st.dataSkipped + 1 }
          hndr (fun e2 he2 => hdisj e2 (List.mem_cons_of_mem _ he2))]
        simp [enumExpected, includedEntry, h1, h2]
      · by_cases h3 : includeInShard legacyShard settings numShards shardIdx
            e.logid = true
        · have hstep : enumeratorStep legacyShard settings rebuildInternalLogs
              numShards shardIdx now minTs st e =
              { st with result := emplace st.result e.logid (nextTimestamp now minTs e) } := by
            simp [enumeratorStep, h1, h2, h3]
          have hlk : st.result.lookup e.logid = none :=
            hdisj e (List.mem_cons_self e rest)
          have hemp : emplace st.result e.logid (nextTimestamp now minTs e) =
              st.result ++ [(e.logid, nextTimestamp now minTs e)] := by
            simp [emplace, hlk]
          have hdisj2 : ∀ e2 ∈ rest,
              (emplace st.result e.logid
                (nextTimestamp now minTs e)).lookup e2.logid = none := by
            intro e2 he2
            rw [hemp,
              lookup_append_of_none (hdisj e2 (List.mem_cons_of_mem _ he2))]
            exact lookup_singleton_ne
              (fun hEq => hnotin
                (hEq ▸ List.mem_map_of_mem LogEntry.logid he2))
          rw [hstep, ih { st with result := emplace st.result e.logid (nextTimestamp now minTs e) }
            hndr (fun e2 he2 => hdisj2 e2 he2)]
          simp only [enumExpected, includedEntry, h1, h2, h3]
          rw [hemp]
          simp [enumExpected, includedEntry, h1, h2, h3]
        · have hstep : enumeratorStep legacyShard settings rebuildInternalLogs
              numShards shardIdx now minTs st e = st := by
            simp [enumeratorStep, h1, h2, h3]
          rw [hstep,
            ih st hndr (fun e2 he2 => hdisj e2 (List.mem_cons_of_mem _ he2))]
          simp [enumExpected, includedEntry, h1, h2, h3]

theorem enumeratorStart_result (legacyShard : Nat → Nat → Nat)
    (settings : RebuildingSettings) (rebuildInternalLogs : Bool)
    (numShards shardIdx : Nat) (now minTs : Int) (logs : List LogEntry)
    (hnd : (logs.map LogEntry.logid).Nodup) :
    (enumeratorStart legacyShard settings rebuildInternalLogs numShards
      shardIdx now minTs logs).result =
      enumExpected legacyShard settings rebuildInternalLogs numShards
        shardIdx now minTs logs := by
  have := enumeratorStart_go_result legacyShard settings rebuildInternalLogs
    numShards shardIdx now minTs logs enumInit hnd
    (fun e _ => by simp [enumInit, List.lookup])
  simpa [enumeratorStart, enumInit] using this

theorem enumeratorStart_go_maxB (legacyShard : Nat → Nat → Nat)
    (settings : RebuildingSettings) (rebuildInternalLogs : Bool)
    (numShards shardIdx : Nat) (now minTs : Int) :
    ∀ (logs : List LogEntry) (st : EnumState),
      (logs.foldl
        (enumeratorStep legacyShard settings rebuildInternalLogs numShards
          shardIdx now minTs) st).maxBacklogDuration =
        (skippedDataBacklogs settings rebuildInternalLogs logs).foldl max
          st.maxBacklogDuration := by
  intro logs
  induction logs with
  | nil => intro st; simp [skippedDataBacklogs]
  | cons e rest ih =>
    intro st
    rw [List.foldl_cons]
    by_cases h1 : skipInternal rebuildInternalLogs e = true
    · have hstep : enumeratorStep legacyShard settings rebuildInternalLogs
          numShards shardIdx now minTs st e =
          { st with internalSkipped := st.internalSkipped + 1 } := by
        simp [enumeratorStep, h1]
      rw [hstep, ih]
      simp [skippedDataBacklogs, h1]
    · by_cases h2 : skipData settings e = true
      · have hstep : enumeratorStep legacyShard settings rebuildInternalLogs
            numShards shardIdx now minTs st e =
            { st with maxBacklogDuration := max st.maxBacklogDuration (e.backlogDuration.getD 0), dataSkipped := st.dataSkipped + 1 } := by
          simp [enumeratorStep, h1, h2]
        rw [hstep, ih]
        cases hb : e.backlogDuration with
        | none => simp [skipData, hb] at h2
        | some b => simp [skippedDataBacklogs, h1, h2, hb]
      · by_cases h3 : includeInShard legacyShard settings numShards shardIdx
            e.logid = true
        · have hstep : enumeratorStep legacyShard settings rebuildInternalLogs
              numShards shardIdx now minTs st e =
              { st with result := emplace st.result e.logid (nextTimestamp now minTs e) } := by
            simp [enumeratorStep, h1, h2, h3]
          rw [hstep, ih]
          simp [skippedDataBacklogs, h1, h2]
        · have hstep : enumeratorStep legacyShard settings rebuildInternalLogs
              numShards shardIdx now minTs st e = st := by
            simp [enumeratorStep, h1, h2, h3]
          rw [hstep, ih]
          simp [skippedDataBacklogs, h1, h2]

theorem enumExpected_ids_nodup (legacyShard : Nat → Nat → Nat)
    (settings : RebuildingSettings) (rebuildInternalLogs : Bool)
    (numShards shardIdx : Nat) (now minTs : Int) (logs : List LogEntry)
    (hnd : (logs.map LogEntry.logid).Nodup) :
    ((enumExpected legacyShard settings rebuildInternalLogs numShards
      shardIdx now minTs logs).map Prod.fst).Nodup := by
  unfold enumExpected
  rw [List.map_map]
  have h2 : List.map
      (Prod.fst ∘ fun e => (e.logid, nextTimestamp now minTs e))
      (logs.filter (includedEntry legacyShard settings rebuildInternalLogs
        numShards shardIdx)) =
      List.map LogEntry.logid
        (logs.filter (includedEntry legacyShard settings rebuildInternalLogs
          numShards shardIdx)) := by
    simp [Function.comp]
  rw [h2]
  exact List.Nodup.sublist
    ((List.filter_sublist logs).map LogEntry.logid) hnd

/-! ### Lemmas for the metadata-log emplace phase -/

theorem lookup_emplaceAll_of_not_mem (v : Int) :
    ∀ (ls : List Nat) (m : List (Nat × Int)) (k : Nat), k ∉ ls →
      (emplaceAll m ls v).lookup k = m.lookup k := by
  intro ls
  induction ls with
  | nil => intro m k _; rfl
  | cons a rest ih =>
    intro m k hk
    have hka : k ≠ a := fun h => hk (h ▸ List.mem_cons_self a rest)
    have hkr : k ∉ rest := fun h => hk (List.mem_cons_of_mem a h)
    show (emplaceAll (emplace m a v) rest v).lookup k = m.lookup k
    rw [ih (emplace m a v) k hkr, emplace_lookup_other m a v hka]

theorem lookup_emplaceAll_of_mem (v : Int) :
    ∀ (ls : List Nat) (m : List (Nat × Int)) (l : Nat), l ∈ ls →
      (emplaceAll m ls v).lookup l = some ((m.lookup l).getD v) := by
  intro ls
  induction ls with
  | nil => intro m l h; cases h
  | cons a rest ih =>
    intro m l hl
    show (emplaceAll (emplace m a v) rest v).lookup l =
      some ((m.lookup l).getD v)
    by_cases hla : l = a
    · subst hla
      by_cases hlr : l ∈ rest
      · rw [ih (emplace m l v) l hlr, emplace_lookup_self m l v]
        cases h : m.lookup l <;> simp [h]
      · rw [lookup_emplaceAll_of_not_mem v rest (emplace m l v) l hlr,
          emplace_lookup_self m l v]
    · have hlr : l ∈ rest := by
        rcases List.mem_cons.mp hl with h | h
        · exact absurd h hla
        · exact h
      rw [ih (emplace m a v) l hlr, emplace_lookup_other m a v hla]

/-! ### Claim theorems for the enumerator -/

/-- C6 counterexample: with `disable_data_log_rebuilding` set, a data log
(log id 7: not internal, not a metadata log) that has *no* backlog
configured is still enumerated — it appears in the produced mapping, so
the enumerator does not skip every data log. -/
theorem c6_data_log_without_backlog_not_skipped :
    (⟨true, false⟩ : RebuildingSettings).disable_data_log_rebuilding = true ∧
    (⟨7, false, false, none⟩ : LogEntry).isMetaDataLog = false ∧
    (⟨7, false, false, none⟩ : LogEntry).isInternal = false ∧
    ((enumeratorStart (fun _ _ => 0) ⟨true, false⟩ false 1 0 100 0
      [⟨7, false, false, none⟩]).result.map Prod.fst) = [7] := by
  refine ⟨rfl, rfl, rfl, ?_⟩
  decide

/-- C6 (corrected): with `disable_data_log_rebuilding` set, the enumerator
skips every data log that has a finite backlog configured (such a log never
appears in the produced mapping), tracks the maximum backlog duration over
exactly the skipped data logs, and `finalize` delivers that duration with
the completion callback alongside the mapping. -/
theorem c6_skip_data_logs_with_backlog (legacyShard : Nat → Nat → Nat)
    (settings : RebuildingSettings) (rebuildInternalLogs : Bool)
    (numShards shardIdx : Nat) (now minTs : Int) (logs : List LogEntry)
    (outcomes : List StorageTaskOutcome)
    (hdis : settings.disable_data_log_rebuilding = true)
    (hnd : (logs.map LogEntry.logid).Nodup) :
    (∀ e ∈ logs, e.isMetaDataLog = false → e.backlogDuration.isSome = true →
      (enumeratorStart legacyShard settings rebuildInternalLogs numShards
        shardIdx now minTs logs).result.lookup e.logid = none) ∧
    (enumeratorStart legacyShard settings rebuildInternalLogs numShards
      shardIdx now minTs logs).maxBacklogDuration =
      (skippedDataBacklogs settings rebuildInternalLogs logs).foldl max 0 ∧
    (rebuildingLogEnumeratorRun legacyShard settings rebuildInternalLogs
      false numShards shardIdx now minTs logs outcomes).finalized =
      some
        ((enumeratorStart legacyShard settings rebuildInternalLogs numShards
          shardIdx now minTs logs).result,
         (enumeratorStart legacyShard settings rebuildInternalLogs numShards
          shardIdx now minTs logs).maxBacklogDuration) := by
  refine ⟨?_, ?_, ?_⟩
  · intro e he hmeta hsome
    rw [enumeratorStart_result legacyShard settings rebuildInternalLogs
      numShards shardIdx now minTs logs hnd]
    by_contra hne
    obtain ⟨v, hv⟩ : ∃ v, (enumExpected legacyShard settings
        rebuildInternalLogs numShards shardIdx now minTs logs).lookup
          e.logid = some v := by
      cases h : (enumExpected legacyShard settings rebuildInternalLogs
          numShards shardIdx now minTs logs).lookup e.logid with
      | none => exact absurd h hne
      | some v => exact ⟨v, rfl⟩
    have hmem := lookup_some_mem hv
    unfold enumExpected at hmem
    obtain ⟨e2, he2, heq⟩ := List.mem_map.mp hmem
    have he2f := List.mem_filter.mp he2
    have hid : e2.logid = e.logid := congrArg Prod.fst heq
    have he2eq : e2 = e :=
      List.inj_on_of_nodup_map hnd he2f.1 he hid
    have hincl := he2f.2
    rw [he2eq] at hincl
    have hskip : skipData settings e = true := by
      simp [skipData, hdis, hmeta, hsome]
    simp [includedEntry, hskip] at hincl
  · have := enumeratorStart_go_maxB legacyShard settings rebuildInternalLogs
      numShards shardIdx now minTs logs enumInit
    simpa [enumeratorStart, enumInit] using this
  · simp [rebuildingLogEnumeratorRun]

/-- C6 witness: a concrete configuration with one finite-backlog data log
(id 1, backlog 5), one infinite-retention data log (id 2) and one metadata
log (id 3). -/
theorem c6_skip_data_logs_with_backlog_witness :
    (∀ e ∈ [(⟨1, false, false, some 5⟩ : LogEntry),
        ⟨2, false, false, none⟩, ⟨3, false, true, some 9⟩],
      e.isMetaDataLog = false → e.backlogDuration.isSome = true →
      (enumeratorStart (fun _ _ => 0) ⟨true, false⟩ false 1 0 100 0
        [⟨1, false, false, some 5⟩, ⟨2, false, false, none⟩,
         ⟨3, false, true, some 9⟩]).result.lookup e.logid = none) ∧
    (enumeratorStart (fun _ _ => 0) ⟨true, false⟩ false 1 0 100 0
      [⟨1, false, false, some 5⟩, ⟨2, false, false, none⟩,
       ⟨3, false, true, some 9⟩]).maxBacklogDuration =
      (skippedDataBacklogs ⟨true, false⟩ false
        [⟨1, false, false, some 5⟩, ⟨2, false, false, none⟩,
         ⟨3, false, true, some 9⟩]).foldl max 0 ∧
    (rebuildingLogEnumeratorRun (fun _ _ => 0) ⟨true, false⟩ false
      false 1 0 100 0
      [⟨1, false, false, some 5⟩, ⟨2, false, false, none⟩,
       ⟨3, false, true, some 9⟩] []).finalized =
      some
        ((enumeratorStart (fun _ _ => 0) ⟨true, false⟩ false 1 0 100 0
          [⟨1, false, false, some 5⟩, ⟨2, false, false, none⟩,
           ⟨3, false, true, some 9⟩]).result,
         (enumeratorStart (fun _ _ => 0) ⟨true, false⟩ false 1 0 100 0
          [⟨1, false, false, some 5⟩, ⟨2, false, false, none⟩,
           ⟨3, false, true, some 9⟩]).maxBacklogDuration) :=
  c6_skip_data_logs_with_backlog (fun _ _ => 0) ⟨true, false⟩ false 1 0
    100 0
    [⟨1, false, false, some 5⟩, ⟨2, false, false, none⟩,
     ⟨3, false, true, some 9⟩] [] (by decide) (by decide)

/-- C8 (confirmed): for every retained log, the timestamp recorded in the
result mapping is `max(min_timestamp, now - backlog)` when the log has a
backlog configured, and the minimum representable timestamp raised to at
least `min_timestamp` when it has none. -/
theorem c8_next_timestamp (legacyShard : Nat → Nat → Nat)
    (settings : RebuildingSettings) (rebuildInternalLogs : Bool)
    (numShards shardIdx : Nat) (now minTs : Int) (logs : List LogEntry)
    (e : LogEntry) (hnd : (logs.map LogEntry.logid).Nodup)
    (hmem : e ∈ logs)
    (h1 : skipInternal rebuildInternalLogs e = false)
    (h2 : skipData settings e = false)
    (h3 : includeInShard legacyShard settings numShards shardIdx
      e.logid = true) :
    (enumeratorStart legacyShard settings rebuildInternalLogs numShards
      shardIdx now minTs logs).result.lookup e.logid =
      some (match e.backlogDuration with
        | some b => max minTs (now - (b : Int))
        | none => max minTs recordTimestampMin) := by
  rw [enumeratorStart_result legacyShard settings rebuildInternalLogs
    numShards shardIdx now minTs logs hnd]
  have hval : (match e.backlogDuration with
      | some b => max minTs (now - (b : Int))
      | none => max minTs recordTimestampMin) =
      nextTimestamp now minTs e := by
    unfold nextTimestamp
    cases e.backlogDuration <;> rfl
  rw [hval]
  apply lookup_of_mem_nodup
  · unfold enumExpected
    apply List.mem_map_of_mem
    apply List.mem_filter.mpr
    exact ⟨hmem, by simp [includedEntry, h1, h2, h3]⟩
  · exact enumExpected_ids_nodup legacyShard settings rebuildInternalLogs
      numShards shardIdx now minTs logs hnd

/-- C8 witness: one log with a backlog of 30 and one without, on a
concrete configuration. -/
theorem c8_next_timestamp_witness :
    (enumeratorStart (fun l n => l % n) ⟨false, true⟩ false 4 2 1000 (-5)
      [⟨6, false, false, some 30⟩, ⟨7, false, false, none⟩]).result.lookup
        6 =
      some (match (⟨6, false, false, some 30⟩ : LogEntry).backlogDuration
        with
        | some b => max (-5) (1000 - (b : Int))
        | none => max (-5) recordTimestampMin) :=
  c8_next_timestamp (fun l n => l % n) ⟨false, true⟩ false 4 2 1000 (-5)
    [⟨6, false, false, some 30⟩, ⟨7, false, false, none⟩]
    ⟨6, false, false, some 30⟩ (by decide) (by decide) (by decide)
    (by decide) (by decide)

/-- C9 (confirmed): a non-skipped log is included in the result exactly
when the legacy mapping is disabled or `getLegacyShardIndexForLog` sends
it to the shard being rebuilt, and the result holds each log id at most
once. -/
theorem c9_shard_inclusion (legacyShard : Nat → Nat → Nat)
    (settings : RebuildingSettings) (rebuildInternalLogs : Bool)
    (numShards shardIdx : Nat) (now minTs : Int) (logs : List LogEntry)
    (e : LogEntry) (hnd : (logs.map LogEntry.logid).Nodup)
    (hmem : e ∈ logs)
    (h1 : skipInternal rebuildInternalLogs e = false)
    (h2 : skipData settings e = false) :
    ((∃ v, (enumeratorStart legacyShard settings rebuildInternalLogs
        numShards shardIdx now minTs logs).result.lookup e.logid =
        some v) ↔
      (settings.use_legacy_log_to_shard_mapping_in_rebuilding = false ∨
        legacyShard e.logid numShards = shardIdx)) ∧
    ((enumeratorStart legacyShard settings rebuildInternalLogs numShards
      shardIdx now minTs logs).result.map Prod.fst).Nodup := by
  rw [enumeratorStart_result legacyShard settings rebuildInternalLogs
    numShards shardIdx now minTs logs hnd]
  constructor
  · constructor
    · rintro ⟨v, hv⟩
      have hmem2 := lookup_some_mem hv
      unfold enumExpected at hmem2
      obtain ⟨e2, he2, heq⟩ := List.mem_map.mp hmem2
      have he2f := List.mem_filter.mp he2
      have hid : e2.logid = e.logid := congrArg Prod.fst heq
      have he2eq : e2 = e :=
        List.inj_on_of_nodup_map hnd he2f.1 hmem hid
      have hincl := he2f.2
      rw [he2eq] at hincl
      have h3 : includeInShard legacyShard settings numShards shardIdx
          e.logid = true := by
        simp only [includedEntry, Bool.and_eq_true] at hincl
        exact hincl.2
      exact Or.symm (by simpa [includeInShard] using h3)
    · intro h
      have h3 : includeInShard legacyShard settings numShards shardIdx
          e.logid = true := by
        simpa [includeInShard] using Or.symm h
      refine ⟨nextTimestamp now minTs e, ?_⟩
      apply lookup_of_mem_nodup
      · unfold enumExpected
        apply List.mem_map_of_mem
        exact List.mem_filter.mpr
          ⟨hmem, by simp [includedEntry, h1, h2, h3]⟩
      · exact enumExpected_ids_nodup legacyShard settings
          rebuildInternalLogs numShards shardIdx now minTs logs hnd
  · exact enumExpected_ids_nodup legacyShard settings rebuildInternalLogs
      numShards shardIdx now minTs logs hnd

/-- C9 witness: with the legacy mapping enabled on a 4-shard store
rebuilding shard 2, log 6 maps to shard 2 and is included. -/
theorem c9_shard_inclusion_witness :
    ((∃ v, (enumeratorStart (fun l n => l % n) ⟨false, true⟩ false 4 2
        1000 0
        [⟨6, false, false, some 30⟩, ⟨7, false, false, none⟩]).result.lookup
          6 = some v) ↔
      ((⟨false, true⟩ :
        RebuildingSettings).use_legacy_log_to_shard_mapping_in_rebuilding =
          false ∨ 6 % 4 = 2)) ∧
    ((enumeratorStart (fun l n => l % n) ⟨false, true⟩ false 4 2 1000 0
      [⟨6, false, false, some 30⟩,
       ⟨7, false, false, none⟩]).result.map Prod.fst).Nodup :=
  c9_shard_inclusion (fun l n => l % n) ⟨false, true⟩ false 4 2 1000 0
    [⟨6, false, false, some 30⟩, ⟨7, false, false, none⟩]
    ⟨6, false, false, some 30⟩ (by decide) (by decide) (by decide)
    (by decide)

/-- C10 (confirmed): every metadata log returned by the successful storage
task is emplaced with `min_timestamp` as its timestamp — an entry already
present for the same log id is left unchanged, an absent one is added with
exactly `min_timestamp` — and entries for other log ids are untouched. -/
theorem c10_metadata_emplace (minTs : Int) (m : List (Nat × Int))
    (maxB : Nat) (ls : List Nat) (rest : List StorageTaskOutcome) :
    (runMetadataTasks minTs m maxB (.ok ls :: rest)).finalized =
      some (emplaceAll m ls minTs, maxB) ∧
    (∀ l ∈ ls, (emplaceAll m ls minTs).lookup l =
      some ((m.lookup l).getD minTs)) ∧
    (∀ k, k ∉ ls → (emplaceAll m ls minTs).lookup k = m.lookup k) := by
  refine ⟨rfl, ?_, ?_⟩
  · intro l hl
    exact lookup_emplaceAll_of_mem minTs ls m l hl
  · intro k hk
    exact lookup_emplaceAll_of_not_mem minTs ls m k hk

/-- C10 witness: the storage task returns logs 4 and 9; log 4 is already
present with timestamp 77 and keeps it, log 9 is added with the
`min_timestamp` 3, and the unrelated entry 5 is untouched. -/
theorem c10_metadata_emplace_witness :
    (runMetadataTasks 3 [(4, 77), (5, 8)] 11 [.ok [4, 9]]).finalized =
      some (emplaceAll [(4, 77), (5, 8)] [4, 9] 3, 11) ∧
    (∀ l ∈ [4, 9],
      (emplaceAll [(4, 77), (5, 8)] [4, 9] 3).lookup l =
        some ((([(4, 77), (5, 8)] : List (Nat × Int)).lookup l).getD 3)) ∧
    (∀ k, k ∉ [4, 9] →
      (emplaceAll [(4, 77), (5, 8)] [4, 9] 3).lookup k =
        ([(4, 77), (5, 8)] : List (Nat × Int)).lookup k) :=
  c10_metadata_emplace 3 [(4, 77), (5, 8)] 11 [4, 9] []

/-- C7 counterexample: after two consecutive task failures the enumerator
re-issues the storage task immediately from the completion callback — the
model delay before every retry is 0, not an exponential backoff capped at
10 seconds (the 10-second figure in the code is only the rate limit of the
error log message). -/
theorem c7_no_backoff_between_retries :
    (runMetadataTasks 0 [] 0 [.failed, .dropped, .ok []]).retryDelays =
      [0, 0] ∧
    ((runMetadataTasks 0 [] 0
      [.failed, .dropped, .ok []]).retryDelays.all
        (fun d => decide (0 < d))) = false := by
  constructor <;> rfl

/-- C7 (corrected): when the metadata-log storage task fails or is
dropped, the enumerator retries indefinitely and immediately (no backoff
delay); the failure is never surfaced — with no successful outcome the
callback is never invoked while a task is re-issued for every failure, and
when the callback is invoked its payload comes from the first successful
enumeration only. -/
theorem c7_retry_forever_no_surface (minTs : Int) (m : List (Nat × Int))
    (maxB : Nat) (outcomes : List StorageTaskOutcome) :
    (outcomes.all (fun o => !isOkOutcome o) = true →
      (runMetadataTasks minTs m maxB outcomes).finalized = none ∧
      (runMetadataTasks minTs m maxB outcomes).putTaskCount =
        outcomes.length + 1) ∧
    ((runMetadataTasks minTs m maxB outcomes).retryDelays.all
      (fun d => d == 0) = true) ∧
    (∀ res, (runMetadataTasks minTs m maxB outcomes).finalized =
        some res →
      ∃ pre ls post, outcomes = pre ++ .ok ls :: post ∧
        (∀ o ∈ pre, isOkOutcome o = false) ∧
        res = (emplaceAll m ls minTs, maxB)) := by
  induction outcomes with
  | nil =>
    refine ⟨fun _ => ⟨rfl, rfl⟩, rfl, ?_⟩
    intro res h
    cases h
  | cons o rest ih =>
    cases o with
    | ok ls =>
      refine ⟨?_, ?_, ?_⟩
      · intro h
        simp [isOkOutcome] at h
      · rfl
      · intro res h
        refine ⟨[], ls, rest, rfl, by simp, ?_⟩
        cases h
        rfl
    | failed =>
      refine ⟨?_, ?_, ?_⟩
      · intro h
        simp only [List.all_cons, Bool.and_eq_true] at h
        obtain ⟨hall⟩ := ih.1 h.2
        refine ⟨?_, ?_⟩
        · show (runMetadataTasks minTs m maxB rest).finalized = none
          exact (ih.1 h.2).1
        · show (runMetadataTasks minTs m maxB rest).putTaskCount + 1 =
            rest.length + 1 + 1
          rw [(ih.1 h.2).2]
      · show (0 :: (runMetadataTasks minTs m maxB rest).retryDelays).all
          (fun d => d == 0) = true
        simp only [List.all_cons, Bool.and_eq_true]
        exact ⟨rfl, ih.2.1⟩
      · intro res h
        have h2 : (runMetadataTasks minTs m maxB rest).finalized =
            some res := h
        obtain ⟨pre, ls, post, heq, hpre, hres⟩ := ih.2.2 res h2
        refine ⟨.failed :: pre, ls, post, by rw [heq]; rfl, ?_, hres⟩
        intro o ho
        rcases List.mem_cons.mp ho with rfl | ho2
        · rfl
        · exact hpre o ho2
    | dropped =>
      refine ⟨?_, ?_, ?_⟩
      · intro h
        simp only [List.all_cons, Bool.and_eq_true] at h
        refine ⟨?_, ?_⟩
        · show (runMetadataTasks minTs m maxB rest).finalized = none
          exact (ih.1 h.2).1
        · show (runMetadataTasks minTs m maxB rest).putTaskCount + 1 =
            rest.length + 1 + 1
          rw [(ih.1 h.2).2]
      · show (0 :: (runMetadataTasks minTs m maxB rest).retryDelays).all
          (fun d => d == 0) = true
        simp only [List.all_cons, Bool.and_eq_true]
        exact ⟨rfl, ih.2.1⟩
      · intro res h
        have h2 : (runMetadataTasks minTs m maxB rest).finalized =
            some res := h
        obtain ⟨pre, ls, post, heq, hpre, hres⟩ := ih.2.2 res h2
        refine ⟨.dropped :: pre, ls, post, by rw [heq]; rfl, ?_, hres⟩
        intro o ho
        rcases List.mem_cons.mp ho with rfl | ho2
        · rfl
        · exact hpre o ho2

/-- C7 witness: two failures followed by a success on a concrete state. -/
theorem c7_retry_forever_no_surface_witness :
    (runMetadataTasks 2 [(1, 9)] 6 [.failed, .failed]).finalized = none ∧
    (runMetadataTasks 2 [(1, 9)] 6 [.failed, .failed]).putTaskCount =
      ([.failed, .failed] : List StorageTaskOutcome).length + 1 :=
  (c7_retry_forever_no_surface 2 [(1, 9)] 6 [.failed, .failed]).1
    (by decide)



/-! ### Claim theorems for the rebuilding supervisor throttle -/

/-- C4 counterexample: with `max_rebuilding_trigger_queue_size = 1` and two
nodes dead simultaneously, the supervisor evaluates the queue (size 2,
exceeding the threshold) before anything fires: it enters throttled mode
with the stat at 1 and zero triggers fired — not one, as the claim's
"the first trigger fires" asserts.  This matches the integration test,
which asserts `shard_rebuilding_triggered == 0` while throttled. -/
theorem c4_no_trigger_fires_before_throttle :
    (supervisorRun 1 supervisorInit throttleEventsPhase1).throttled =
      true ∧
    (supervisorRun 1 supervisorInit throttleEventsPhase1).statThrottled =
      1 ∧
    (supervisorRun 1 supervisorInit throttleEventsPhase1).fired.length =
      0 ∧
    ¬ (supervisorRun 1 supervisorInit
        throttleEventsPhase1).fired.length = 1 := by
  decide

/-- C4 (corrected): with `max_rebuilding_trigger_queue_size = 1`, when two
storage nodes die simultaneously both triggers are scheduled and neither
fires: the supervisor enters throttled mode with
`rebuilding_supervisor_throttled = 1` and no further grace periods fire
anything; when one dead node comes back (the queue no longer exceeds the
threshold) the supervisor exits throttled mode, resets the stat to 0 and
fires the remaining trigger; and on leadership loss the pending triggers
are cancelled and the stat is reset with nothing fired. -/
theorem c4_trigger_queue_throttle :
    (supervisorRun 1 supervisorInit throttleEventsPhase1).queue =
      [1, 3] ∧
    (supervisorRun 1 supervisorInit throttleEventsPhase1).throttled =
      true ∧
    (supervisorRun 1 supervisorInit throttleEventsPhase1).statThrottled =
      1 ∧
    (supervisorRun 1 supervisorInit throttleEventsPhase1).fired = [] ∧
    (supervisorRun 1 supervisorInit throttleEventsPhase2).fired = [1] ∧
    (supervisorRun 1 supervisorInit throttleEventsPhase2).throttled =
      false ∧
    (supervisorRun 1 supervisorInit throttleEventsPhase2).statThrottled =
      0 ∧
    (supervisorRun 1 supervisorInit throttleLeaderLossEvents).fired =
      [] ∧
    (supervisorRun 1 supervisorInit
      throttleLeaderLossEvents).statThrottled = 0 ∧
    (supervisorRun 1 supervisorInit throttleLeaderLossEvents).throttled =
      false ∧
    (supervisorRun 1 supervisorInit throttleLeaderLossEvents).queue =
      [] := by
  decide

/-! ### Lemmas for the cross-domain selector -/

theorem crossDomainPick_length (k : Nat) :
    ∀ eligible : List (List Nat),
      (crossDomainPick eligible k).length =
        k * nRacksWith (eligible.map List.length) k := by
  intro eligible
  induction eligible with
  | nil => simp [crossDomainPick, nRacksWith]
  | cons rck rest ih =>
    simp only [crossDomainPick, List.foldr_cons] at ih ⊢
    by_cases h : k ≤ rck.length
    · rw [if_pos h, List.length_append, List.length_take, ih]
      have hmin : min k rck.length = k := Nat.min_eq_left h
      have hcount : nRacksWith (rck.length :: rest.map List.length) k =
          nRacksWith (rest.map List.length) k + 1 := by
        simp [nRacksWith, List.filter, h]
      simp only [List.map_cons, hcount, hmin, Nat.mul_succ]
      omega
    · rw [if_neg h, ih]
      have hcount : nRacksWith (rck.length :: rest.map List.length) k =
          nRacksWith (rest.map List.length) k := by
        simp [nRacksWith, List.filter, h]
      simp only [List.map_cons, hcount]

/-- C2 (confirmed): whenever `getStorageSet` of the cross-domain selector
returns `NEEDS_CHANGE` with a nodeset, `getStorageSetSize` invoked with
the same configuration, exclusions, replication property and target size
returns exactly the size of that nodeset. -/
theorem c2_size_prediction (racks : List (List Nat)) (excl : List Nat)
    (rackReq r T : Nat) (ns : List Nat)
    (h : getStorageSetCrossDomain racks excl rackReq r T =
      (.NEEDS_CHANGE, some ns)) :
    getStorageSetSizeCrossDomain racks excl rackReq r T = ns.length := by
  simp only [getStorageSetCrossDomain] at h
  simp only [getStorageSetSizeCrossDomain]
  by_cases hm : (eligibleRacks racks excl).length = 0
  · rw [if_pos hm] at h
    simp at h
  · rw [if_neg hm] at h
    rw [if_neg hm]
    cases hbk : bestK ((eligibleRacks racks excl).map List.length) rackReq r
        (targetShare r T (eligibleRacks racks excl).length) with
    | none =>
      rw [hbk] at h
      simp at h
    | some k =>
      rw [hbk] at h
      simp only [Prod.mk.injEq, Option.some.injEq] at h
      rw [← h.2]
      exact (crossDomainPick_length k (eligibleRacks racks excl)).symm

/-- C2 witness: a 2-rack, 4-node cluster with target size 4 yields the
nodeset `[0, 1, 2, 3]`, and the size prediction is 4. -/
theorem c2_size_prediction_witness :
    getStorageSetSizeCrossDomain [[0, 1], [2, 3]] [] 2 2 4 =
      ([0, 1, 2, 3] : List Nat).length :=
  c2_size_prediction [[0, 1], [2, 3]] [] 2 2 4 [0, 1, 2, 3] (by decide)

theorem nRacksWith_s3 (k : Nat) :
    nRacksWith [5, 5, 5, 5, 6] k =
      if k ≤ 5 then 5 else if k ≤ 6 then 1 else 0 := by
  by_cases h5 : k ≤ 5 <;> by_cases h6 : k ≤ 6 <;>
    simp [nRacksWith, List.filter, h5, h6] <;> omega

theorem bestK_succ (sizes : List Nat) (rq r kcap : Nat) :
    bestK sizes rq r (kcap + 1) =
      (if feasibleK sizes rq r (kcap + 1) then
        match bestK sizes rq r kcap with
        | none => some (kcap + 1)
        | some b =>
            if b * nRacksWith sizes b <
                (kcap + 1) * nRacksWith sizes (kcap + 1) then
              some (kcap + 1)
            else bestK sizes rq r kcap
      else bestK sizes rq r kcap) := by
  unfold bestK
  rw [List.range_succ, List.foldl_append]
  rfl

theorem bestK_s3_stable (r : Nat) :
    ∀ kcap, 5 ≤ kcap →
      bestK [5, 5, 5, 5, 6] 2 r kcap = bestK [5, 5, 5, 5, 6] 2 r 5 := by
  intro kcap hk
  induction kcap, hk using Nat.le_induction with
  | base => rfl
  | succ n hn ih =>
    rw [bestK_succ]
    have hinf : feasibleK [5, 5, 5, 5, 6] 2 r (n + 1) = false := by
      have hn1 : nRacksWith [5, 5, 5, 5, 6] (n + 1) ≤ 1 := by
        rw [nRacksWith_s3]
        split
        · omega
        · split <;> omega
      unfold feasibleK
      have : ¬ (2 ≤ nRacksWith [5, 5, 5, 5, 6] (n + 1)) := by omega
      simp [this]
    rw [hinf]
    simpa using ih

theorem bestK_s3_r3 (kcap : Nat) (h1 : 1 ≤ kcap) :
    bestK [5, 5, 5, 5, 6] 2 3 kcap = some (min 5 kcap) := by
  rcases Nat.lt_or_ge kcap 6 with h | h
  · interval_cases kcap <;> decide
  · rw [bestK_s3_stable 3 kcap (by omega)]
    have hmin : min 5 kcap = 5 := by omega
    rw [hmin]
    decide

theorem bestK_s3_r6 (kcap : Nat) (h1 : 2 ≤ kcap) :
    bestK [5, 5, 5, 5, 6] 2 6 kcap = some (min 5 kcap) := by
  rcases Nat.lt_or_ge kcap 6 with h | h
  · interval_cases kcap <;> decide
  · rw [bestK_s3_stable 6 kcap (by omega)]
    have hmin : min 5 kcap = 5 := by omega
    rw [hmin]
    decide

theorem s3_size_law_r3 (T : Nat) :
    getStorageSetSizeCrossDomain s3Racks [] 2 3 T =
      5 * min 5 (max 1 (roundDiv T 5)) := by
  have he : eligibleRacks s3Racks [] = s3Racks := by decide
  simp only [getStorageSetSizeCrossDomain, he]
  have hsz : s3Racks.map List.length = [5, 5, 5, 5, 6] := by decide
  have hm : s3Racks.length = 5 := by decide
  rw [hsz, hm]
  have hts : targetShare 3 T 5 = max 1 (roundDiv T 5) := by
    unfold targetShare minPerRack
    norm_num
  rw [hts]
  rw [bestK_s3_r3 (max 1 (roundDiv T 5)) (le_max_left 1 (roundDiv T 5))]
  simp only [if_neg (by omega : ¬ (5 : Nat) = 0)]
  have hk5 : min 5 (max 1 (roundDiv T 5)) ≤ 5 := Nat.min_le_left _ _
  rw [nRacksWith_s3, if_pos hk5]
  omega

theorem s3_size_law_r6 (T : Nat) :
    getStorageSetSizeCrossDomain s3Racks [] 2 6 T =
      5 * min 5 (max 2 (roundDiv T 5)) := by
  have he : eligibleRacks s3Racks [] = s3Racks := by decide
  simp only [getStorageSetSizeCrossDomain, he]
  have hsz : s3Racks.map List.length = [5, 5, 5, 5, 6] := by decide
  have hm : s3Racks.length = 5 := by decide
  rw [hsz, hm]
  have hts : targetShare 6 T 5 = max 2 (roundDiv T 5) := by
    unfold targetShare minPerRack
    norm_num
  rw [hts]
  rw [bestK_s3_r6 (max 2 (roundDiv T 5)) (le_max_left 2 (roundDiv T 5))]
  simp only [if_neg (by omega : ¬ (5 : Nat) = 0)]
  have hk5 : min 5 (max 2 (roundDiv T 5)) ≤ 5 := Nat.min_le_left _ _
  rw [nRacksWith_s3, if_pos hk5]
  omega

/-- C1 counterexample: on the 26-node cluster at requested size 7 with
r = 3 the selector returns 5 nodes — the expectation table of the
`ImpreciseNodeSetSize` test records (r = 3, requested 7, returned 5) —
while the claimed rule (smallest multiple of the 5 domains that is at
least the requested size) would return 10. -/
theorem c1_requested_seven_returns_five :
    getStorageSetSizeCrossDomain s3Racks [] 2 3 7 = 5 ∧
    claimedSmallestMultiple 3 7 = 10 ∧
    (3, 7, 5) ∈ impreciseExpectations ∧
    getStorageSetSizeCrossDomain s3Racks [] 2 3 7 ≠
      claimedSmallestMultiple 3 7 := by
  refine ⟨by decide, by decide, by decide, by decide⟩

/-- C1 (corrected): on the 26-node, 5-rack {5,5,5,5,6} cluster, the
returned nodeset size for requested size `T` is 5 times `T / 5` rounded to
the *nearest* integer (not up), raised to the smallest per-domain share
meeting `r` and capped at the 25 usable nodes; in particular requested 8
returns 10 and requested 100 returns 25, and the full expectation table of
the `ImpreciseNodeSetSize` test is reproduced. -/
theorem c1_imprecise_sizing :
    (∀ T, getStorageSetSizeCrossDomain s3Racks [] 2 3 T =
      5 * min 5 (max 1 (roundDiv T 5))) ∧
    (∀ T, getStorageSetSizeCrossDomain s3Racks [] 2 6 T =
      5 * min 5 (max 2 (roundDiv T 5))) ∧
    getStorageSetSizeCrossDomain s3Racks [] 2 3 8 = 10 ∧
    getStorageSetSizeCrossDomain s3Racks [] 2 3 100 = 25 ∧
    (impreciseExpectations.all (fun p =>
      getStorageSetSizeCrossDomain s3Racks [] 2 p.1 p.2.1 == p.2.2)) =
      true := by
  refine ⟨s3_size_law_r3, s3_size_law_r6, by decide, by decide, by decide⟩


/-! ### Determinism of the selectors -/

theorem insertionSort_keyLE_perm_eq (f : RingPt → Nat)
    {l1 l2 : List RingPt} (h : l1.Perm l2) :
    List.insertionSort (keyLE f) l1 = List.insertionSort (keyLE f) l2 :=
  List.eq_of_perm_of_sorted
    ((List.perm_insertionSort (keyLE f) l1).trans
      (h.trans (List.perm_insertionSort (keyLE f) l2).symm))
    (List.sorted_insertionSort (keyLE f) l1)
    (List.sorted_insertionSort (keyLE f) l2)

theorem ringOf_perm {s1 s2 : List ShardInfo} (h : s1.Perm s2) :
    ringOf s1 = ringOf s2 :=
  insertionSort_keyLE_perm_eq RingPt.pos (h.map toRingPt)

theorem selectCHfast_perm {s1 s2 : List ShardInfo} (h : s1.Perm s2)
    (caps T logid : Nat) :
    selectCHfast s1 caps T logid = selectCHfast s2 caps T logid := by
  unfold selectCHfast
  rw [ringOf_perm h]

theorem selectWAmask_perm {s1 s2 : List ShardInfo} (h : s1.Perm s2)
    (caps : Nat → Nat) (T logid : Nat) :
    selectWAmask s1 caps T logid = selectWAmask s2 caps T logid := by
  unfold selectWAmask
  rw [insertionSort_keyLE_perm_eq (waKey logid) (h.map toRingPt)]

theorem nRacksWith_perm {s1 s2 : List Nat} (h : s1.Perm s2) (k : Nat) :
    nRacksWith s1 k = nRacksWith s2 k := by
  unfold nRacksWith
  rw [← List.countP_eq_length_filter, ← List.countP_eq_length_filter,
    h.countP_eq]

theorem bestK_perm {s1 s2 : List Nat} (h : s1.Perm s2) (rq r kcap : Nat) :
    bestK s1 rq r kcap = bestK s2 rq r kcap := by
  have hb : ∀ k, nRacksWith s1 k = nRacksWith s2 k := nRacksWith_perm h
  have hf : ∀ k, feasibleK s1 rq r k = feasibleK s2 rq r k := fun k => by
    unfold feasibleK
    rw [hb]
  unfold bestK
  congr 1
  funext best i
  simp only [hf, hb]

theorem crossDomain_decision_perm {racks1 racks2 : List (List Nat)}
    (h : racks1.Perm racks2) (excl : List Nat) (rackReq r T : Nat) :
    (getStorageSetCrossDomain racks1 excl rackReq r T).1 =
      (getStorageSetCrossDomain racks2 excl rackReq r T).1 := by
  have hel : (eligibleRacks racks1 excl).Perm (eligibleRacks racks2 excl) :=
    (h.map _).filter _
  have hsz : ((eligibleRacks racks1 excl).map List.length).Perm
      ((eligibleRacks racks2 excl).map List.length) := hel.map _
  have hm : (eligibleRacks racks1 excl).length =
      (eligibleRacks racks2 excl).length := hel.length_eq
  simp only [getStorageSetCrossDomain]
  rw [hm, bestK_perm hsz]
  by_cases h0 : (eligibleRacks racks2 excl).length = 0
  · simp [h0]
  · simp only [if_neg h0]
    cases bestK ((eligibleRacks racks2 excl).map List.length) rackReq r
      (targetShare r T (eligibleRacks racks2 excl).length) <;> rfl

/-- C3 (confirmed on the model): selector invocations are pure functions
of their inputs.  Repeated invocations with identical inputs return
identical results; the consistent-hashing and weight-aware selectors
return identical nodesets even when the configuration enumerates the same
shards in a different order (as different processes may), because
selection works on the sorted ring or the seeded rank order; and the
cross-domain selector returns the same decision under reordering of its
domains. -/
theorem c3_selector_determinism (shards1 shards2 : List ShardInfo)
    (racks1 racks2 : List (List Nat)) (caps : Nat) (capsWA : Nat → Nat)
    (T logid rackReq r : Nat) (excl : List Nat)
    (hs : shards1.Perm shards2) (hr : racks1.Perm racks2) :
    selectCHfast shards1 caps T logid =
      selectCHfast shards1 caps T logid ∧
    selectWAmask shards1 capsWA T logid =
      selectWAmask shards1 capsWA T logid ∧
    selectCHfast shards1 caps T logid =
      selectCHfast shards2 caps T logid ∧
    selectWAmask shards1 capsWA T logid =
      selectWAmask shards2 capsWA T logid ∧
    (getStorageSetCrossDomain racks1 excl rackReq r T).1 =
      (getStorageSetCrossDomain racks2 excl rackReq r T).1 :=
  ⟨rfl, rfl, selectCHfast_perm hs caps T logid,
    selectWAmask_perm hs capsWA T logid,
    crossDomain_decision_perm hr excl rackReq r T⟩

/-- C3 witness: a two-shard, two-rack configuration presented in two
different orders. -/
theorem c3_selector_determinism_witness :
    selectCHfast [⟨0, 0⟩, ⟨1, 1⟩] 17 1 1 =
      selectCHfast [⟨0, 0⟩, ⟨1, 1⟩] 17 1 1 ∧
    selectWAmask [⟨0, 0⟩, ⟨1, 1⟩] (fun _ => 1) 1 1 =
      selectWAmask [⟨0, 0⟩, ⟨1, 1⟩] (fun _ => 1) 1 1 ∧
    selectCHfast [⟨0, 0⟩, ⟨1, 1⟩] 17 1 1 =
      selectCHfast [⟨1, 1⟩, ⟨0, 0⟩] 17 1 1 ∧
    selectWAmask [⟨0, 0⟩, ⟨1, 1⟩] (fun _ => 1) 1 1 =
      selectWAmask [⟨1, 1⟩, ⟨0, 0⟩] (fun _ => 1) 1 1 ∧
    (getStorageSetCrossDomain [[0], [1]] [] 1 1 1).1 =
      (getStorageSetCrossDomain [[1], [0]] [] 1 1 1).1 :=
  c3_selector_determinism [⟨0, 0⟩, ⟨1, 1⟩] [⟨1, 1⟩, ⟨0, 0⟩]
    [[0], [1]] [[1], [0]] 17 (fun _ => 1) 1 1 1 1 []
    (List.Perm.swap (⟨1, 1⟩ : ShardInfo) ⟨0, 0⟩ [])
    (List.Perm.swap [1] [0] [])


/-- `forceN` applies its continuation to its argument. -/
theorem forceN_eq (n : Nat) (k : Nat → Nat) : forceN n k = k n := by
  cases n <;> rfl

/-- The chunked churn loop splits at any chunk boundary. -/
theorem churnPackedGo_add (a b logid acc : Nat) :
    churnPackedGo (a + b) logid acc
      = churnPackedGo b (logid + 100 * a) (churnPackedGo a logid acc) := by
  induction a generalizing logid acc with
  | zero => simp [churnPackedGo]
  | succ a ih =>
      have h1 : a + 1 + b = (a + b) + 1 := by omega
      rw [h1]
      simp only [churnPackedGo, forceN_eq]
      rw [ih]
      have h2 : logid + 100 + 100 * a = logid + 100 * (a + 1) := by omega
      rw [h2]

set_option maxRecDepth 1000000 in
set_option maxHeartbeats 1000000000 in
/-- Segment 1 of the churn computation: logs 1..1000, starting
from the previous checkpoint. -/
theorem churnSeg1 : churnPackedGo 10 1 0 = churnCk1 := rfl

set_option maxRecDepth 1000000 in
set_option maxHeartbeats 1000000000 in
/-- Segment 2 of the churn computation: logs 1001..2000, starting
from the previous checkpoint. -/
theorem churnSeg2 : churnPackedGo 10 1001 churnCk1 = churnCk2 := rfl

set_option maxRecDepth 1000000 in
set_option maxHeartbeats 1000000000 in
/-- Segment 3 of the churn computation: logs 2001..3000, starting
from the previous checkpoint. -/
theorem churnSeg3 : churnPackedGo 10 2001 churnCk2 = churnCk3 := rfl

set_option maxRecDepth 1000000 in
set_option maxHeartbeats 1000000000 in
/-- Segment 4 of the churn computation: logs 3001..4000, starting
from the previous checkpoint. -/
theorem churnSeg4 : churnPackedGo 10 3001 churnCk3 = churnCk4 := rfl

set_option maxRecDepth 1000000 in
set_option maxHeartbeats 1000000000 in
/-- Segment 5 of the churn computation: logs 4001..5000, starting
from the previous checkpoint. -/
theorem churnSeg5 : churnPackedGo 10 4001 churnCk4 = churnCk5 := rfl

set_option maxRecDepth 1000000 in
set_option maxHeartbeats 1000000000 in
/-- Segment 6 of the churn computation: logs 5001..6000, starting
from the previous checkpoint. -/
theorem churnSeg6 : churnPackedGo 10 5001 churnCk5 = churnCk6 := rfl

set_option maxRecDepth 1000000 in
set_option maxHeartbeats 1000000000 in
/-- Segment 7 of the churn computation: logs 6001..7000, starting
from the previous checkpoint. -/
theorem churnSeg7 : churnPackedGo 10 6001 churnCk6 = churnCk7 := rfl

set_option maxRecDepth 1000000 in
set_option maxHeartbeats 1000000000 in
/-- Segment 8 of the churn computation: logs 7001..8000, starting
from the previous checkpoint. -/
theorem churnSeg8 : churnPackedGo 10 7001 churnCk7 = churnCk8 := rfl

set_option maxRecDepth 1000000 in
set_option maxHeartbeats 1000000000 in
/-- Segment 9 of the churn computation: logs 8001..9000, starting
from the previous checkpoint. -/
theorem churnSeg9 : churnPackedGo 10 8001 churnCk8 = churnCk9 := rfl

set_option maxRecDepth 1000000 in
set_option maxHeartbeats 1000000000 in
/-- Segment 10 of the churn computation: logs 9001..10000, starting
from the previous checkpoint. -/
theorem churnSeg10 : churnPackedGo 10 9001 churnCk9 = churnCk10 := rfl

/-- The full packed churn computation equals the final checkpoint. -/
theorem churnTotal_eq : churnTotal = churnCk10 := by
  show churnPackedGo 100 1 0 = churnCk10
  rw [show (100 : Nat) = 10 + 90 from rfl, churnPackedGo_add, churnSeg1]
  show churnPackedGo 90 1001 churnCk1 = churnCk10
  rw [show (90 : Nat) = 10 + 80 from rfl, churnPackedGo_add, churnSeg2]
  show churnPackedGo 80 2001 churnCk2 = churnCk10
  rw [show (80 : Nat) = 10 + 70 from rfl, churnPackedGo_add, churnSeg3]
  show churnPackedGo 70 3001 churnCk3 = churnCk10
  rw [show (70 : Nat) = 10 + 60 from rfl, churnPackedGo_add, churnSeg4]
  show churnPackedGo 60 4001 churnCk4 = churnCk10
  rw [show (60 : Nat) = 10 + 50 from rfl, churnPackedGo_add, churnSeg5]
  show churnPackedGo 50 5001 churnCk5 = churnCk10
  rw [show (50 : Nat) = 10 + 40 from rfl, churnPackedGo_add, churnSeg6]
  show churnPackedGo 40 6001 churnCk6 = churnCk10
  rw [show (40 : Nat) = 10 + 30 from rfl, churnPackedGo_add, churnSeg7]
  show churnPackedGo 30 7001 churnCk7 = churnCk10
  rw [show (30 : Nat) = 10 + 20 from rfl, churnPackedGo_add, churnSeg8]
  show churnPackedGo 20 8001 churnCk8 = churnCk10
  rw [show (20 : Nat) = 10 + 10 from rfl, churnPackedGo_add, churnSeg9]
  show churnPackedGo 10 9001 churnCk9 = churnCk10
  exact churnSeg10

/-- A binary-search lower bound never exceeds the upper end of its
range. -/
theorem ringLowerBound_le (posRing start : Nat) :
    ∀ (f lo hi : Nat), lo ≤ hi → ringLowerBound posRing start f lo hi ≤ hi := by
  intro f
  induction f with
  | zero => intro lo hi h; simpa [ringLowerBound] using h
  | succ f ih =>
      intro lo hi h
      simp only [ringLowerBound, forceN_eq]
      rcases Nat.eq_or_lt_of_le h with heq | hlt
      · subst heq
        simp
      · have hne : Nat.beq lo hi = false := by
          cases hb : Nat.beq lo hi with
          | false => rfl
          | true => exact absurd (Nat.eq_of_beq_eq_true hb) (by omega)
        rw [hne]
        cases Nat.ble start
            (Nat.land (Nat.shiftRight posRing (Nat.mul 64 ((lo + hi) / 2)))
              0xffffffffffffffff) with
        | false =>
            exact ih ((lo + hi) / 2 + 1) hi (by omega)
        | true =>
            exact Nat.le_trans (ih lo ((lo + hi) / 2) (by omega)) (by omega)

set_option maxRecDepth 1000000 in
set_option maxHeartbeats 1000000000 in
/-- Every entry of the 79-node walk table is the walk that `walkFast`
itself performs from that start index. -/
theorem chWalkTab79_spec :
    ∀ s, s < 80 → walkLook79 s = walkFast chWalk3x79 chCaps 21 158 s 0 0 0 := by
  decide

set_option maxRecDepth 1000000 in
set_option maxHeartbeats 1000000000 in
/-- Every entry of the 80-node walk table is the walk that `walkFast`
itself performs from that start index. -/
theorem chWalkTab80_spec :
    ∀ s, s < 81 → walkLook80 s = walkFast chWalk3x80 chCaps 21 160 s 0 0 0 := by
  decide

/-- One churn step aggregates exactly the per-log data of `selOldP` and
`selNewP`: shards removed, shards added, the two size checks, and the
spread selection mask of the new nodeset. -/
theorem churnStepN_spec (acc logid : Nat) :
    churnStepN acc logid =
      Nat.add
        (Nat.add
          (Nat.add
            (Nat.add acc
              (Nat.sub (pop128 (selOldP logid))
                (pop128 (Nat.land (selOldP logid) (selNewP logid)))))
            (Nat.shiftLeft
              (Nat.sub (pop128 (selNewP logid))
                (pop128 (Nat.land (selOldP logid) (selNewP logid)))) 24))
          (Nat.shiftLeft
            (Nat.add (cond (Nat.beq (pop128 (selOldP logid)) 21) 0 1)
              (cond (Nat.beq (pop128 (selNewP logid)) 21) 0 1))
            48))
        (Nat.shiftLeft (spread80 (selNewP logid)) 64) := by
  simp only [churnStepN, forceN_eq]
  rfl

set_option maxRecDepth 1000000 in
set_option maxHeartbeats 1000000000 in
/-- C5 (confirmed on the model): in the AddNode churn experiment — 10000
logs with nodeset size 21, one shard added to the fifth rack of the
79-shard cluster — the total number of shards removed across all new
nodesets equals the total number added, that total is at most 5000, every
nodeset in both configurations has exactly 21 shards, and every shard's
selection frequency over the new nodesets lies within [500, 4500].  The
last two conjuncts check that the tabled walk results agree, for every
log id, with the CONSISTENT_HASHING selector applied to the two shard
configurations. -/
theorem c5_add_node_churn :
    churnRemoved churnTotal = churnAdded churnTotal ∧
    churnRemoved churnTotal ≤ 5000 ∧
    churnBadSizes churnTotal = 0 ∧
    lanesWithin (churnFreqs churnTotal) 500 4500 80 = true ∧
    (∀ l, selOldP l = selectCHfast chShards79 chCaps 21 l) ∧
    (∀ l, selNewP l = selectCHfast chShards80 chCaps 21 l) := by
  have h : churnTotal = churnCk10 := churnTotal_eq
  refine ⟨?_, ?_, ?_, ?_, fun l => ?_, fun l => ?_⟩
  · rw [h]
    decide
  · rw [h]
    decide
  · rw [h]
    decide
  · rw [h]
    decide
  · exact chWalkTab79_spec (ringLowerBound chPos79 (hashLog l) 79 0 79)
      (Nat.lt_succ_of_le
        (ringLowerBound_le chPos79 (hashLog l) 79 0 79 (Nat.zero_le 79)))
  · exact chWalkTab80_spec (ringLowerBound chPos80 (hashLog l) 80 0 80)
      (Nat.lt_succ_of_le
        (ringLowerBound_le chPos80 (hashLog l) 80 0 80 (Nat.zero_le 80)))

end LogDevice
